import Mathlib

/-!
# CuteCodeAccess: the project-file generator `FCuteCodeInitializer`

A shallow embedding of `Source/CuteCodeAccess/Private/CuteCodeInitializer.cpp`.

* `FString` is `String`, `TArray<FString>` is `List String`.
* Every call that touches the outside (the XML parser, the file system, the
  environment, the log) is recorded, in program order, as an `Event`; what
  the outside answers is read from a `World`.
* An engine range check that fires (`TArray::Pop`, `TArray::Last`,
  `TArray::RemoveAt`, `FString::operator[]`) ends the run with a `Failure`;
  the events recorded before it stay recorded. The generator is editor code,
  built with the engine checks on.
* `SaveStringArrayToFile` is recorded with the array and the path it is given;
  its return value is ignored by the generator and is not modelled.
-/

namespace CuteCode

/-! ## Effects -/

/-- The engine container check that stopped a run. -/
inductive Failure where
  | Pop
  | Last
  | RemoveAt
  | Index
  deriving DecidableEq

/-- One observable call made by the generator, with its arguments. -/
inductive Event where
  /-- A call `FFastXml::ParseXmlFile(Callback, XmlFilePath, XmlFileContents, ...)`. -/
  | ParseXmlFile (XmlFilePath : String) (XmlFileContents : String)
  /-- A call `FFileHelper::SaveStringArrayToFile(Lines, Filename)`. -/
  | SaveStringArrayToFile (Lines : List String) (Filename : String)
  /-- A line `UE_LOG(LogCuteCodeInitializer, Error, ...)`, with the formatted text. -/
  | Log (Message : String)
  /-- A call `FWindowsPlatformMisc::GetEnvironmentVariable(VariableName, ...)`. -/
  | GetEnvironmentVariable (VariableName : String)
  /-- A call `FPaths::FileExists(Filename)`. -/
  | FileExists (Filename : String)
  /-- A call `FFileHelper::LoadFileToStringArray(Result, Filename)`. -/
  | LoadFileToStringArray (Filename : String)
  deriving DecidableEq

/-- A run: the events it made, in order, and how it ended. -/
structure Eff (α : Type) where
  events : List Event
  result : Except Failure α

/-- Sequencing: a failed first part stops the run, its events are kept. -/
def Eff.bind {α β : Type} (x : Eff α) (f : α → Eff β) : Eff β :=
  match x.result with
  | .error e => ⟨x.events, .error e⟩
  | .ok a => ⟨x.events ++ (f a).events, (f a).result⟩

instance : Monad Eff where
  pure a := ⟨[], .ok a⟩
  bind := Eff.bind

/-- Record one event. -/
def emit (e : Event) : Eff Unit := ⟨[e], .ok ()⟩

/-- Stop on a failed engine check. -/
def raise {α : Type} (e : Failure) : Eff α := ⟨[], .error e⟩

/-- Whether the run reached its end. -/
def Eff.completed {α : Type} (x : Eff α) : Bool :=
  match x.result with
  | .ok _ => true
  | .error _ => false

/-- The `(Filename, Lines)` of every `SaveStringArrayToFile` call of a trace. -/
def savedFiles : List Event → List (String × List String)
  | [] => []
  | .SaveStringArrayToFile Lines Filename :: es => (Filename, Lines) :: savedFiles es
  | _ :: es => savedFiles es

/-! ## Engine library: `TArray<FString>` -/

/-- Engine `TArray::Add`: appends at the end. -/
def Add (A : List String) (Item : String) : List String := A ++ [Item]

/-- Engine `TArray::Pop`: removes the last element; range-checks that there is one. -/
def Pop (A : List String) : Eff (List String) :=
  if A = [] then raise .Pop else pure A.dropLast

/-- Engine `TArray::Last`: the last element; range-checks that there is one. -/
def Last (A : List String) : Eff String :=
  match A.getLast? with
  | some x => pure x
  | none => raise .Last

/-- Engine `TArray::RemoveAt(Index, Count)`: removes `Count` elements from `Index`;
checks `Index + Count <= Num()` when `Count` is not zero. -/
def RemoveAt (A : List String) (Index Count : Nat) : Eff (List String) :=
  if Count = 0 then pure A
  else if Index + Count ≤ A.length then pure (A.take Index ++ A.drop (Index + Count))
  else raise .RemoveAt

/-! ## Engine library: `FString` -/

/-- Engine `FString::Format` with ordered arguments, for the token forms this program
uses: `{N}` with one decimal digit `N` is replaced by argument `N` when there
is one; every other character is copied. Arguments are not rescanned. -/
def FormatChars (Args : List String) : List Char → List Char
  | '{' :: d :: '}' :: rest =>
      if d.isDigit ∧ d.toNat - 48 < Args.length then
        (Args.getD (d.toNat - 48) "").data ++ FormatChars Args rest
      else '{' :: FormatChars Args (d :: '}' :: rest)
  | c :: rest => c :: FormatChars Args rest
  | [] => []

/-- Engine `FString::Format(InFormatString, InOrderedArguments)`. -/
def Format (InFormatString : String) (InOrderedArguments : List String) : String :=
  ⟨FormatChars InOrderedArguments InFormatString.data⟩

/-- The scan of `FString::ParseIntoArray`: `At` is the next place where
`pchDelim` starts at or after `Start`; the text from `Start` to `At` is a
segment (kept unless culled), and `Start` moves past the delimiter. `Skip`
counts the delimiter characters still to step over, `Segment` is the text
since `Start`; at the end the text after the last delimiter is a segment. -/
def ParseIntoArrayScan (pchDelim : List Char) (InCullEmpty : Bool) :
    List Char → Nat → List Char → List String
  | [], _, Segment => if InCullEmpty ∧ Segment = [] then [] else [⟨Segment⟩]
  | _ :: cs, Skip + 1, Segment => ParseIntoArrayScan pchDelim InCullEmpty cs Skip Segment
  | c :: cs, 0, Segment =>
      if pchDelim.isPrefixOf (c :: cs) then
        (if InCullEmpty ∧ Segment = [] then [] else [⟨Segment⟩])
          ++ ParseIntoArrayScan pchDelim InCullEmpty cs (pchDelim.length - 1) []
      else ParseIntoArrayScan pchDelim InCullEmpty cs 0 (Segment ++ [c])

/-- Engine `FString::ParseIntoArray(OutArray, pchDelim, InCullEmpty)`: the array is
reset and, when the string and the delimiter are both non-empty, filled by the
scan. -/
def ParseIntoArray (Str : String) (pchDelim : String) (InCullEmpty : Bool) : List String :=
  if Str.data = [] ∨ pchDelim.data = [] then []
  else ParseIntoArrayScan pchDelim.data InCullEmpty Str.data 0 []

/-- Engine `FString::Join(Range, Separator)`: the elements in order, the separator
before every element but the first. -/
def Join (Range : List String) (Separator : String) : String :=
  (Range.foldl
    (fun (acc : String × Bool) (Element : String) =>
      ((if acc.2 then acc.1 else acc.1 ++ Separator) ++ Element, false))
    ("", true)).1

/-- Engine `FString::operator[]`, as used in `&JoinedLines[0]`: checks that the index
is below `Len()`, so index 0 of an empty string fails. -/
def CharAt (Str : String) (Index : Nat) : Eff Char :=
  match Str.data.get? Index with
  | some c => pure c
  | none => raise .Index

/-- Engine `FString` `operator!=` against a literal: `Stricmp(...) != 0`, a comparison
that ignores letter case (the engine header notes it as case insensitive). -/
def FStringNotEqual (Lhs Rhs : String) : Bool :=
  Lhs.data.map Char.toLower != Rhs.data.map Char.toLower

/-! ## Engine library: `FPaths` -/

/-- Engine `FString::PathAppend` (`operator/=`): joins with one `/` unless the left
part is empty or already ends in a separator, or the right part starts with
`/`. -/
def PathAppend (Data Str : String) : String :=
  match Data.data.getLast? with
  | none => Data ++ Str
  | some c =>
      if Str.data = [] then
        if c ≠ '/' ∧ c ≠ '\\' then Data ++ "/" else Data
      else if c ≠ '/' ∧ c ≠ '\\' ∧ Str.data.head? ≠ some '/' then Data ++ "/" ++ Str
      else Data ++ Str

/-- Engine `FPaths::Combine`: the first part, then every further part appended with
`operator/=`. -/
def Combine : List String → String
  | [] => ""
  | p :: ps => ps.foldl PathAppend p

/-- Engine `FString::EndsWith`, case sensitive. -/
def EndsWith (Str Suffix : String) : Bool :=
  Suffix.data.reverse.isPrefixOf Str.data.reverse

/-- Engine `FPaths::NormalizeDirectoryName`: backslashes become `/`; one trailing `/`
is removed unless the path ends in `//` or `:/`. -/
def NormalizeDirectoryName (InPath : String) : String :=
  let Replaced : String := ⟨InPath.data.map (fun c => if c = '\\' then '/' else c)⟩
  if EndsWith Replaced "/" ∧ ¬ EndsWith Replaced "//" ∧ ¬ EndsWith Replaced ":/" then
    ⟨Replaced.data.dropLast⟩
  else Replaced

/-- Engine `FPaths::GetPath`: the text before the last `/` or `\`, empty when there is
no separator. -/
def GetPath (InPath : String) : String :=
  ⟨((InPath.data.reverse.dropWhile (fun c => c ≠ '/' ∧ c ≠ '\\')).drop 1).reverse⟩

/-! ## The outside -/

/-- Settings class `UCuteCodeEditorSettings`: the plugin settings object. -/
structure UCuteCodeEditorSettings where
  UnrealKitName : String

/-- Callback `FCuteCodeVCProjXmlCallback` after the scan: the four collected values. -/
structure FCuteCodeVCProjXmlCallback where
  Headers : List String
  Sources : List String
  Defines : String
  Includes : String

/-- The out-parameters of `FFastXml::ParseXmlFile`. -/
structure XmlOutcome where
  OutErrorMessage : String
  OutErrorLineNumber : Int

/-- What the outside answers. The generator only reads it: none of the files
it writes is one it reads later. -/
structure World where
  /-- Result of `GetDefault<UCuteCodeEditorSettings>()`, `none` for a null pointer. -/
  GetDefaultSettings : Option UCuteCodeEditorSettings
  /-- The text `GetEnvironmentVariable` leaves in the buffer. -/
  GetEnvironmentVariable : String → String
  FileExists : String → Bool
  /-- The lines `LoadFileToStringArray` returns for a file. -/
  LoadFileToStringArray : String → List String
  /-- The vcxproj scan of `ParseXmlFile(XmlFilePath, XmlFileContents)`: what
  the callback collected and the out-parameters. -/
  ParseVCProjXml : String → String → FCuteCodeVCProjXmlCallback × XmlOutcome
  /-- The profiles scan of `ParseXmlFile(XmlFilePath, XmlFileContents)`: the
  callback's `GetKitUuid()` and the out-parameters. -/
  ParseProfilesXml : String → String → String × XmlOutcome

/-! ## The generator -/

/-- Modelled from the spec: the macro `INTERMEDIATE_PROJECTFILES` of
`CuteCodeConstants.h`, which is not among the sources; the spec places the
files under `<solution>/Intermediate/ProjectFiles/`. -/
def INTERMEDIATE_PROJECTFILES : String := "Intermediate/ProjectFiles"

/-- The members of `FCuteCodeInitializer`. -/
structure FCuteCodeInitializer where
  SolutionPath : String
  ProjectName : String
  VCProjXmlCallback : FCuteCodeVCProjXmlCallback

/-- The constructor `FCuteCodeInitializer::FCuteCodeInitializer`. -/
def FCuteCodeInitializer.new (W : World) (SolutionPath ProjectName : String) :
    Eff FCuteCodeInitializer := do
  let VcxProjFile := Combine [SolutionPath, INTERMEDIATE_PROJECTFILES, ProjectName ++ ".vcxproj"]
  emit (.ParseXmlFile VcxProjFile "")
  let Parsed := W.ParseVCProjXml VcxProjFile ""
  if Parsed.2.OutErrorMessage ≠ "" then
    emit (.Log ("Error parsing .vcxproj file at line: "
      ++ toString Parsed.2.OutErrorLineNumber ++ " " ++ Parsed.2.OutErrorMessage))
  pure { SolutionPath := SolutionPath, ProjectName := ProjectName,
         VCProjXmlCallback := Parsed.1 }

/-- Method `FCuteCodeInitializer::AppendFormattedStrings`. -/
def AppendFormattedStrings (OutArray : List String) (Formatter : String)
    (ToAppend : List String) : List String :=
  ToAppend.foldl (fun Out Item => Add Out (Format Formatter [Item])) OutArray

/-- Method `FCuteCodeInitializer::CreateProFile`. -/
def CreateProFile (self : FCuteCodeInitializer) : Eff Unit := do
  let ProFileLines : List String := [
    "TEMPLATE = app",
    "",
    "CONFIG += console c++11",
    "CONFIG -= app_bundle qt",
    "",
    "include(defines.pri)",
    "include(includes.pri)",
    ""]
  let ProFileLines := Add ProFileLines "HEADERS += \\"
  let ProFileLines := AppendFormattedStrings ProFileLines "{0} \\" self.VCProjXmlCallback.Headers
  let ProFileLines ← Pop ProFileLines
  let LastHeader ← Last self.VCProjXmlCallback.Headers
  let ProFileLines := Add ProFileLines (Format "{0}" [LastHeader])
  let ProFileLines := Add ProFileLines ""
  let ProFileLines := Add ProFileLines "SOURCES += \\"
  let ProFileLines := AppendFormattedStrings ProFileLines "{0} \\" self.VCProjXmlCallback.Sources
  let ProFileLines ← Pop ProFileLines
  let LastSource ← Last self.VCProjXmlCallback.Sources
  let ProFileLines := Add ProFileLines (Format "{0}" [LastSource])
  let ProFilePath := Combine [self.SolutionPath, INTERMEDIATE_PROJECTFILES, self.ProjectName ++ ".pro"]
  emit (.SaveStringArrayToFile ProFileLines ProFilePath)

/-- Method `FCuteCodeInitializer::CreatePriFiles`. -/
def CreatePriFiles (self : FCuteCodeInitializer) : Eff Unit := do
  let DefinesPriLines : List String := [
    "######################################################################",
    "########## This file has been generated by CuteCodeAccess ############",
    "######################################################################"]
  let Defines := ParseIntoArray self.VCProjXmlCallback.Defines ";" true
  let DefinesPriLines := Add DefinesPriLines "DEFINES += \\"
  let DefinesPriLines := AppendFormattedStrings DefinesPriLines "\"{0}\" \\" Defines
  let DefinesPriLines ← Pop DefinesPriLines
  let LastDefine ← Last Defines
  let DefinesPriLines := Add DefinesPriLines (Format "\"{0}\"" [LastDefine])
  let DefinesPriFilePath := Combine [self.SolutionPath, INTERMEDIATE_PROJECTFILES, "defines.pri"]
  emit (.SaveStringArrayToFile DefinesPriLines DefinesPriFilePath)
  let IncludesPriLines : List String := [
    "######################################################################",
    "########## This file has been generated by CuteCodeAccess ############",
    "######################################################################"]
  let Includes := ParseIntoArray self.VCProjXmlCallback.Includes ";" true
  let IncludesPriLines := Add IncludesPriLines "INCLUDEPATH += \\"
  let IncludesPriLines := AppendFormattedStrings IncludesPriLines "\"{0}\" \\" Includes
  let IncludesPriLines ← Pop IncludesPriLines
  let LastInclude ← Last Includes
  let IncludesPriLines := Add IncludesPriLines (Format "\"{0}\"" [LastInclude])
  let IncludePriFilePaths := Combine [self.SolutionPath, INTERMEDIATE_PROJECTFILES, "includes.pri"]
  emit (.SaveStringArrayToFile IncludesPriLines IncludePriFilePaths)

/-- Method `FCuteCodeInitializer::CreateProUserFile`. -/
def CreateProUserFile (W : World) (_self : FCuteCodeInitializer) : Eff Unit :=
  match W.GetDefaultSettings with
  | none => pure ()
  | some Settings =>
    if Settings.UnrealKitName = "" then
      emit (.Log "Unreal kit name must be set to create project files correctly")
    else do
      emit (.GetEnvironmentVariable "APPDATA")
      let EnvVar := W.GetEnvironmentVariable "APPDATA"
      let QtCreatorProfileXmlFile :=
        NormalizeDirectoryName (Combine [EnvVar, "QtProject/qtcreator/profiles.xml"])
      emit (.FileExists QtCreatorProfileXmlFile)
      if W.FileExists QtCreatorProfileXmlFile then do
        emit (.LoadFileToStringArray QtCreatorProfileXmlFile)
        let QtCreatorProfileXmlLines := W.LoadFileToStringArray QtCreatorProfileXmlFile
        let QtCreatorProfileXmlLines ← RemoveAt QtCreatorProfileXmlLines 0 3
        let JoinedLines := Join QtCreatorProfileXmlLines "\n"
        let _ ← CharAt JoinedLines 0
        emit (.ParseXmlFile "" JoinedLines)
        let Parsed := W.ParseProfilesXml "" JoinedLines
        emit (.Log ("uuid: " ++ Parsed.1))
        if Parsed.2.OutErrorMessage ≠ ""
            ∧ FStringNotEqual Parsed.2.OutErrorMessage "User aborted the parsing process" then
          emit (.Log ("Error parsing profiles.xml file at line: "
            ++ toString Parsed.2.OutErrorLineNumber ++ " " ++ Parsed.2.OutErrorMessage))
      else
        emit (.Log ("\"" ++ QtCreatorProfileXmlFile ++ "\" not found"))

/-- Method `FCuteCodeInitializer::Run`. -/
def Run (W : World) (self : FCuteCodeInitializer) : Eff Unit := do
  CreateProFile self
  CreatePriFiles self
  CreateProUserFile W self

/-- The path `CreateProUserFile` computes for the settings file. -/
def QtCreatorProfileXmlFile (W : World) : String :=
  NormalizeDirectoryName
    (Combine [W.GetEnvironmentVariable "APPDATA", "QtProject/qtcreator/profiles.xml"])


/-! ## Specification vocabulary -/

/-- The non-empty `;`-separated segments of a string, in their order: the text
is split at every `;` and the zero-length pieces are dropped. -/
def nonEmptySegments (s : String) : List String :=
  ((s.data.splitOn ';').filter (fun seg => seg ≠ [])).map String.mk

/-- Lines joined with a single newline between consecutive lines and none at
the end. -/
def joinLines : List String → String
  | [] => ""
  | [x] => x
  | x :: y :: rest => x ++ "\n" ++ joinLines (y :: rest)

/-- Whether a trace holds a log line that starts with
`Error parsing profiles.xml file at line: `. -/
def parseErrorLogged (events : List Event) : Bool :=
  events.any (fun e =>
    match e with
    | .Log Message => "Error parsing profiles.xml file at line: ".data.isPrefixOf Message.data
    | _ => false)


/-! ## Sample inputs -/

/-- A generator whose four collected values are all non-empty. -/
def sampleInitializer : FCuteCodeInitializer :=
  { SolutionPath := "/sol", ProjectName := "App",
    VCProjXmlCallback :=
      { Headers := ["a.h", "b.h"], Sources := ["a.cpp"],
        Defines := "A;;B=1;", Includes := "/inc;/inc2" } }

/-- A generator with no source, surviving defines and no surviving include. -/
def sampleNoIncludes : FCuteCodeInitializer :=
  { SolutionPath := "/sol", ProjectName := "App",
    VCProjXmlCallback :=
      { Headers := ["a.h"], Sources := [], Defines := "A;B", Includes := ";;" } }

/-- An outside with a kit name set, `APPDATA` on a Windows drive, a five-line
settings file, a vcxproj scan that collects non-empty values, and a profiles
scan that stops early on its target. -/
def sampleWorld : World :=
  { GetDefaultSettings := some { UnrealKitName := "Unreal" },
    GetEnvironmentVariable := fun _ => "C:\\Users\\u\\AppData\\Roaming",
    FileExists := fun _ => true,
    LoadFileToStringArray := fun _ =>
      ["<?xml version=\"1.0\"?>", "<!DOCTYPE QtCreatorProfiles>", "<!-- Written -->",
        "<qtcreator>", "</qtcreator>"],
    ParseVCProjXml := fun _ _ => (sampleInitializer.VCProjXmlCallback, ⟨"", -1⟩),
    ParseProfilesXml := fun _ _ => ("kit-uuid", ⟨"User aborted the parsing process", 4⟩) }

/-- The outside of `sampleWorld` with a settings file of two lines. -/
def sampleWorldShortFile : World :=
  { sampleWorld with LoadFileToStringArray := fun _ => ["<qtcreator>", "</qtcreator>"] }

/-- The outside of `sampleWorld` with a settings file of exactly three lines. -/
def sampleWorldThreeLines : World :=
  { sampleWorld with
    LoadFileToStringArray := fun _ =>
      ["<?xml version=\"1.0\"?>", "<!DOCTYPE QtCreatorProfiles>", "<!-- Written -->"] }

/-- The outside of `sampleWorld` with a parser that reports a syntax error. -/
def sampleWorldSyntaxError : World :=
  { sampleWorld with ParseProfilesXml := fun _ _ => ("", ⟨"Expected a tag name", 7⟩) }

/-- The outside of `sampleWorld` with an empty kit name. -/
def sampleWorldNoKit : World :=
  { sampleWorld with GetDefaultSettings := some { UnrealKitName := "" } }

/-- The outside of `sampleWorld` without the settings file. -/
def sampleWorldNoFile : World :=
  { sampleWorld with FileExists := fun _ => false }

/-! ## Basic facts -/

@[simp] theorem pure_bind_eff {α β : Type} (a : α) (f : α → Eff β) :
    (pure a : Eff α) >>= f = f a := rfl

@[simp] theorem emit_bind_eff {β : Type} (e : Event) (f : Unit → Eff β) :
    emit e >>= f = ⟨e :: (f ()).events, (f ()).result⟩ := rfl

@[simp] theorem raise_bind_eff {α β : Type} (e : Failure) (f : α → Eff β) :
    (raise e : Eff α) >>= f = raise e := rfl

@[simp] theorem pure_events {α : Type} (a : α) : (pure a : Eff α).events = [] := rfl

@[simp] theorem pure_result {α : Type} (a : α) : (pure a : Eff α).result = .ok a := rfl

theorem Pop_ne_nil (A : List String) (h : A ≠ []) : Pop A = pure A.dropLast := by
  simp [Pop, h]

theorem Last_ne_nil (A : List String) (h : A ≠ []) : Last A = pure (A.getLast h) := by
  simp [Last, List.getLast?_eq_getLast _ h]

@[simp] theorem Last_nil : Last [] = raise .Last := rfl

theorem AppendFormattedStrings_eq (Out : List String) (F : String) (xs : List String) :
    AppendFormattedStrings Out F xs = Out ++ xs.map (fun x => Format F [x]) := by
  unfold AppendFormattedStrings
  induction xs generalizing Out with
  | nil => simp
  | cons x xs ih => rw [List.foldl_cons, ih]; simp [Add]

theorem Format_continued (x : String) : Format "{0} \\" [x] = x ++ " \\" := by
  apply String.ext
  simp [Format, FormatChars]

theorem Format_plain (x : String) : Format "{0}" [x] = x := by
  apply String.ext
  simp [Format, FormatChars]

theorem Format_quoted_continued (x : String) :
    Format "\"{0}\" \\" [x] = "\"" ++ x ++ "\" \\" := by
  apply String.ext
  simp [Format, FormatChars]

theorem Format_quoted (x : String) : Format "\"{0}\"" [x] = "\"" ++ x ++ "\"" := by
  apply String.ext
  simp [Format, FormatChars]

theorem dropLast_append_map (A xs : List String) (f : String → String) (h : xs ≠ []) :
    (A ++ xs.map f).dropLast = A ++ xs.dropLast.map f := by
  rw [List.dropLast_append_of_ne_nil _ (by simpa using h), List.map_dropLast]

theorem CreateProFile_eq (self : FCuteCodeInitializer)
    (hH : self.VCProjXmlCallback.Headers ≠ []) (hS : self.VCProjXmlCallback.Sources ≠ []) :
    CreateProFile self =
      ⟨[.SaveStringArrayToFile
          (["TEMPLATE = app", "", "CONFIG += console c++11", "CONFIG -= app_bundle qt", "",
            "include(defines.pri)", "include(includes.pri)", "", "HEADERS += \\"]
            ++ self.VCProjXmlCallback.Headers.dropLast.map (fun h => h ++ " \\")
            ++ [self.VCProjXmlCallback.Headers.getLast hH]
            ++ ["", "SOURCES += \\"]
            ++ self.VCProjXmlCallback.Sources.dropLast.map (fun s => s ++ " \\")
            ++ [self.VCProjXmlCallback.Sources.getLast hS])
          (Combine [self.SolutionPath, INTERMEDIATE_PROJECTFILES, self.ProjectName ++ ".pro"])],
        .ok ()⟩ := by
  unfold CreateProFile
  simp only [AppendFormattedStrings_eq, Add, Format_continued, Format_plain]
  rw [Pop_ne_nil _ (by simp), Last_ne_nil _ hH]
  simp only [pure_bind_eff]
  rw [Pop_ne_nil _ (by simp), Last_ne_nil _ hS]
  simp only [pure_bind_eff]
  rw [dropLast_append_map _ _ _ hS, dropLast_append_map _ _ _ hH]
  simp [emit]
theorem ParseIntoArrayScan_semicolon (l Seg : List Char) :
    ParseIntoArrayScan [';'] true l 0 Seg =
      ((List.splitOnP.go (fun c => c == ';') l Seg.reverse).filter (fun seg => seg ≠ [])).map
        String.mk := by
  induction l generalizing Seg with
  | nil =>
    by_cases h : Seg = [] <;> simp [ParseIntoArrayScan, List.splitOnP.go, h]
  | cons c cs ih =>
    by_cases hc : c = ';'
    · subst hc
      by_cases h : Seg = [] <;>
        simp [ParseIntoArrayScan, List.splitOnP.go, h, ih, List.isPrefixOf]
    · have hc' : ¬ (';' = c) := fun h => hc h.symm
      simp [ParseIntoArrayScan, List.splitOnP.go, ih, List.isPrefixOf, hc, hc']

theorem ParseIntoArray_semicolon (s : String) :
    ParseIntoArray s ";" true = nonEmptySegments s := by
  unfold ParseIntoArray nonEmptySegments
  by_cases h : s.data = []
  · simp [h, List.splitOn, List.splitOnP, List.splitOnP.go]
  · have h2 : ¬ (";".data = []) := by decide
    have h3 : ";".data = [';'] := rfl
    simp only [h, h2, or_self, if_false, h3]
    rw [ParseIntoArrayScan_semicolon]
    rfl

theorem Join_eq_intercalate (Range : List String) (Separator : String) :
    Join Range Separator = Separator.intercalate Range := by
  unfold Join
  cases Range with
  | nil => rfl
  | cons a as =>
    have key : ∀ (xs : List String) (acc : String),
        (xs.foldl
          (fun (p : String × Bool) (Element : String) =>
            ((if p.2 then p.1 else p.1 ++ Separator) ++ Element, false))
          (acc, false)).1 = String.intercalate.go acc Separator xs := by
      intro xs
      induction xs with
      | nil => intro acc; rfl
      | cons x xs ih => intro acc; simp [String.intercalate.go, ih]
    simp [String.intercalate, key]


theorem CreatePriFiles_eq (self : FCuteCodeInitializer)
    (hD : nonEmptySegments self.VCProjXmlCallback.Defines ≠ [])
    (hI : nonEmptySegments self.VCProjXmlCallback.Includes ≠ []) :
    CreatePriFiles self =
      ⟨[.SaveStringArrayToFile
          (["######################################################################",
            "########## This file has been generated by CuteCodeAccess ############",
            "######################################################################",
            "DEFINES += \\"]
            ++ (nonEmptySegments self.VCProjXmlCallback.Defines).dropLast.map
                (fun d => "\"" ++ d ++ "\" \\")
            ++ ["\"" ++ (nonEmptySegments self.VCProjXmlCallback.Defines).getLast hD ++ "\""])
          (Combine [self.SolutionPath, INTERMEDIATE_PROJECTFILES, "defines.pri"]),
        .SaveStringArrayToFile
          (["######################################################################",
            "########## This file has been generated by CuteCodeAccess ############",
            "######################################################################",
            "INCLUDEPATH += \\"]
            ++ (nonEmptySegments self.VCProjXmlCallback.Includes).dropLast.map
                (fun d => "\"" ++ d ++ "\" \\")
            ++ ["\"" ++ (nonEmptySegments self.VCProjXmlCallback.Includes).getLast hI ++ "\""])
          (Combine [self.SolutionPath, INTERMEDIATE_PROJECTFILES, "includes.pri"])],
        .ok ()⟩ := by
  unfold CreatePriFiles
  simp only [AppendFormattedStrings_eq, Add, Format_quoted_continued, Format_quoted,
    ParseIntoArray_semicolon]
  rw [Pop_ne_nil _ (by simp), Last_ne_nil _ hD]
  simp only [pure_bind_eff, emit_bind_eff]
  rw [Pop_ne_nil _ (by simp), Last_ne_nil _ hI]
  simp only [pure_bind_eff]
  rw [dropLast_append_map _ _ _ hD, dropLast_append_map _ _ _ hI]
  simp [emit]

theorem CreatePriFiles_no_defines (self : FCuteCodeInitializer)
    (hD : nonEmptySegments self.VCProjXmlCallback.Defines = []) :
    CreatePriFiles self = ⟨[], .error .Last⟩ := by
  unfold CreatePriFiles
  simp only [AppendFormattedStrings_eq, Add, ParseIntoArray_semicolon, hD]
  rw [Pop_ne_nil _ (by simp)]
  rfl

theorem CreatePriFiles_no_includes (self : FCuteCodeInitializer)
    (hD : nonEmptySegments self.VCProjXmlCallback.Defines ≠ [])
    (hI : nonEmptySegments self.VCProjXmlCallback.Includes = []) :
    CreatePriFiles self =
      ⟨[.SaveStringArrayToFile
          (["######################################################################",
            "########## This file has been generated by CuteCodeAccess ############",
            "######################################################################",
            "DEFINES += \\"]
            ++ (nonEmptySegments self.VCProjXmlCallback.Defines).dropLast.map
                (fun d => "\"" ++ d ++ "\" \\")
            ++ ["\"" ++ (nonEmptySegments self.VCProjXmlCallback.Defines).getLast hD ++ "\""])
          (Combine [self.SolutionPath, INTERMEDIATE_PROJECTFILES, "defines.pri"])],
        .error .Last⟩ := by
  unfold CreatePriFiles
  simp only [AppendFormattedStrings_eq, Add, Format_quoted_continued, Format_quoted,
    ParseIntoArray_semicolon, hI]
  rw [Pop_ne_nil _ (by simp), Last_ne_nil _ hD]
  simp only [pure_bind_eff, emit_bind_eff]
  rw [Pop_ne_nil _ (by simp)]
  simp only [pure_bind_eff, Last_nil, raise_bind_eff]
  rw [dropLast_append_map _ _ _ hD]
  simp [raise]

theorem CreateProFile_no_headers (self : FCuteCodeInitializer)
    (hH : self.VCProjXmlCallback.Headers = []) :
    CreateProFile self = ⟨[], .error .Last⟩ := by
  unfold CreateProFile
  simp only [AppendFormattedStrings_eq, Add, hH]
  rw [Pop_ne_nil _ (by simp)]
  rfl

theorem CreateProFile_no_sources (self : FCuteCodeInitializer)
    (hH : self.VCProjXmlCallback.Headers ≠ []) (hS : self.VCProjXmlCallback.Sources = []) :
    CreateProFile self = ⟨[], .error .Last⟩ := by
  unfold CreateProFile
  simp only [AppendFormattedStrings_eq, Add, hS]
  rw [Pop_ne_nil _ (by simp), Last_ne_nil _ hH]
  simp only [pure_bind_eff]
  rw [Pop_ne_nil _ (by simp)]
  rfl


theorem RemoveAt_front (A : List String) (h : 3 ≤ A.length) :
    RemoveAt A 0 3 = pure (A.drop 3) := by
  simp [RemoveAt, h]

theorem RemoveAt_short (A : List String) (h : A.length < 3) :
    RemoveAt A 0 3 = raise .RemoveAt := by
  have h' : ¬ (3 ≤ A.length) := by omega
  simp [RemoveAt, h']

theorem CharAt_zero_ne_empty (Str : String) (h : Str ≠ "") :
    ∃ c, CharAt Str 0 = pure c := by
  unfold CharAt
  cases hd : Str.data with
  | nil => exact absurd (String.ext hd) h
  | cons c cs => exact ⟨c, by simp⟩

theorem CharAt_zero_empty : CharAt "" 0 = raise .Index := rfl

theorem CreateProUserFile_no_kit (W : World) (self : FCuteCodeInitializer)
    (Settings : UCuteCodeEditorSettings) (hSet : W.GetDefaultSettings = some Settings)
    (hKit : Settings.UnrealKitName = "") :
    CreateProUserFile W self =
      ⟨[.Log "Unreal kit name must be set to create project files correctly"], .ok ()⟩ := by
  unfold CreateProUserFile
  simp only [hSet, hKit, if_true]
  rfl

theorem CreateProUserFile_not_found (W : World) (self : FCuteCodeInitializer)
    (Settings : UCuteCodeEditorSettings) (hSet : W.GetDefaultSettings = some Settings)
    (hKit : Settings.UnrealKitName ≠ "")
    (hNo : W.FileExists (QtCreatorProfileXmlFile W) = false) :
    CreateProUserFile W self =
      ⟨[.GetEnvironmentVariable "APPDATA",
        .FileExists (QtCreatorProfileXmlFile W),
        .Log ("\"" ++ QtCreatorProfileXmlFile W ++ "\" not found")], .ok ()⟩ := by
  unfold QtCreatorProfileXmlFile at hNo
  unfold CreateProUserFile QtCreatorProfileXmlFile
  simp only [hSet, hKit, if_false, hNo, emit_bind_eff]
  simp [emit]

theorem CreateProUserFile_short (W : World) (self : FCuteCodeInitializer)
    (Settings : UCuteCodeEditorSettings) (hSet : W.GetDefaultSettings = some Settings)
    (hKit : Settings.UnrealKitName ≠ "")
    (hYes : W.FileExists (QtCreatorProfileXmlFile W) = true)
    (hLen : (W.LoadFileToStringArray (QtCreatorProfileXmlFile W)).length < 3) :
    CreateProUserFile W self =
      ⟨[.GetEnvironmentVariable "APPDATA",
        .FileExists (QtCreatorProfileXmlFile W),
        .LoadFileToStringArray (QtCreatorProfileXmlFile W)], .error .RemoveAt⟩ := by
  unfold QtCreatorProfileXmlFile at hYes hLen
  unfold CreateProUserFile QtCreatorProfileXmlFile
  simp only [hSet, hKit, if_false, hYes, if_true, emit_bind_eff, RemoveAt_short _ hLen,
    raise_bind_eff]
  simp [raise]

theorem CreateProUserFile_parsed (W : World) (self : FCuteCodeInitializer)
    (Settings : UCuteCodeEditorSettings) (L : List String) (Uuid : String) (Out : XmlOutcome)
    (hSet : W.GetDefaultSettings = some Settings)
    (hKit : Settings.UnrealKitName ≠ "")
    (hYes : W.FileExists (QtCreatorProfileXmlFile W) = true)
    (hL : W.LoadFileToStringArray (QtCreatorProfileXmlFile W) = L)
    (hLen : 3 ≤ L.length)
    (hBuf : "\n".intercalate (L.drop 3) ≠ "")
    (hP : W.ParseProfilesXml "" ("\n".intercalate (L.drop 3)) = (Uuid, Out)) :
    CreateProUserFile W self =
      ⟨[.GetEnvironmentVariable "APPDATA",
        .FileExists (QtCreatorProfileXmlFile W),
        .LoadFileToStringArray (QtCreatorProfileXmlFile W),
        .ParseXmlFile "" ("\n".intercalate (L.drop 3)),
        .Log ("uuid: " ++ Uuid)]
        ++ (if Out.OutErrorMessage ≠ ""
              ∧ FStringNotEqual Out.OutErrorMessage "User aborted the parsing process" = true
            then [.Log ("Error parsing profiles.xml file at line: "
              ++ toString Out.OutErrorLineNumber ++ " " ++ Out.OutErrorMessage)]
            else []),
       .ok ()⟩ := by
  obtain ⟨c, hc⟩ := CharAt_zero_ne_empty _ hBuf
  subst hL
  unfold QtCreatorProfileXmlFile at hYes hLen hBuf hc hP
  unfold CreateProUserFile QtCreatorProfileXmlFile
  simp only [hSet, hKit, if_false, hYes, if_true, emit_bind_eff, RemoveAt_front _ hLen,
    pure_bind_eff, Join_eq_intercalate, hc, hP]
  split_ifs with h <;> simp [emit]

theorem CreateProUserFile_empty_buffer (W : World) (self : FCuteCodeInitializer)
    (Settings : UCuteCodeEditorSettings) (L : List String)
    (hSet : W.GetDefaultSettings = some Settings)
    (hKit : Settings.UnrealKitName ≠ "")
    (hYes : W.FileExists (QtCreatorProfileXmlFile W) = true)
    (hL : W.LoadFileToStringArray (QtCreatorProfileXmlFile W) = L)
    (hLen : 3 ≤ L.length)
    (hBuf : "\n".intercalate (L.drop 3) = "") :
    CreateProUserFile W self =
      ⟨[.GetEnvironmentVariable "APPDATA",
        .FileExists (QtCreatorProfileXmlFile W),
        .LoadFileToStringArray (QtCreatorProfileXmlFile W)], .error .Index⟩ := by
  subst hL
  unfold QtCreatorProfileXmlFile at hYes hLen hBuf
  unfold CreateProUserFile QtCreatorProfileXmlFile
  simp only [hSet, hKit, if_false, hYes, if_true, emit_bind_eff, RemoveAt_front _ hLen,
    pure_bind_eff, Join_eq_intercalate, hBuf, CharAt_zero_empty, raise_bind_eff]
  simp [raise]

theorem savedFiles_CreateProUserFile (W : World) (self : FCuteCodeInitializer) :
    savedFiles (CreateProUserFile W self).events = [] := by
  cases hSet : W.GetDefaultSettings with
  | none => simp [CreateProUserFile, hSet, savedFiles]
  | some Settings =>
    by_cases hKit : Settings.UnrealKitName = ""
    · rw [CreateProUserFile_no_kit W self Settings hSet hKit]; rfl
    · cases hYes : W.FileExists (QtCreatorProfileXmlFile W) with
      | false => rw [CreateProUserFile_not_found W self Settings hSet hKit hYes]; rfl
      | true =>
        by_cases hLen : 3 ≤ (W.LoadFileToStringArray (QtCreatorProfileXmlFile W)).length
        · by_cases hBuf : "\n".intercalate
              ((W.LoadFileToStringArray (QtCreatorProfileXmlFile W)).drop 3) = ""
          · rw [CreateProUserFile_empty_buffer W self Settings _ hSet hKit hYes rfl hLen hBuf]
            rfl
          · rw [CreateProUserFile_parsed W self Settings _ _ _ hSet hKit hYes rfl hLen hBuf rfl]
            split_ifs <;> rfl
        · rw [CreateProUserFile_short W self Settings hSet hKit hYes (by omega)]; rfl


theorem list_block_index (A xs B : List String) (f : String → String) (hx : xs ≠ []) :
    (∀ i x, i + 1 < xs.length → xs[i]? = some x →
        (A ++ xs.dropLast.map f ++ [xs.getLast hx] ++ B)[A.length + i]? = some (f x)) ∧
    (A ++ xs.dropLast.map f ++ [xs.getLast hx] ++ B)[A.length + (xs.length - 1)]?
        = some (xs.getLast hx) ∧
    (∀ k, (A ++ xs.dropLast.map f ++ [xs.getLast hx] ++ B)[A.length + xs.length + k]? = B[k]?) ∧
    (A ++ xs.dropLast.map f ++ [xs.getLast hx] ++ B).length = A.length + xs.length + B.length := by
  have hlen : 0 < xs.length := List.length_pos.mpr hx
  have hd : xs.dropLast.length = xs.length - 1 := by simp
  refine ⟨?_, ?_, ?_, ?_⟩
  · intro i x hi hxi
    have h1 : (xs.dropLast)[i]? = some x := by
      rw [List.dropLast_eq_take, List.getElem?_take]
      simp [hxi]; omega
    rw [List.append_assoc, List.append_assoc, List.getElem?_append_right (by omega)]
    simp only [Nat.add_sub_cancel_left]
    rw [List.getElem?_append_left (by simp; omega), List.getElem?_map, h1]
    rfl
  · rw [List.append_assoc, List.append_assoc, List.getElem?_append_right (by omega)]
    simp only [Nat.add_sub_cancel_left]
    rw [List.getElem?_append_right (by simp)]
    simp
  · intro k
    rw [List.getElem?_append_right (by simp; omega)]
    congr 1
    simp; omega
  · simp; omega

theorem ParseIntoArrayScan_eq_nil (l Seg : List Char) :
    ParseIntoArrayScan [';'] true l 0 Seg = [] ↔ Seg = [] ∧ ∀ c ∈ l, c = ';' := by
  induction l generalizing Seg with
  | nil => simp [ParseIntoArrayScan]
  | cons c cs ih =>
    by_cases hc : c = ';'
    · subst hc
      simp [ParseIntoArrayScan, List.isPrefixOf, ih]
    · have hc' : ¬ (';' = c) := fun h => hc h.symm
      simp [ParseIntoArrayScan, List.isPrefixOf, ih, hc, hc']

theorem nonEmptySegments_eq_nil (s : String) :
    nonEmptySegments s = [] ↔ ∀ c ∈ s.data, c = ';' := by
  rw [← ParseIntoArray_semicolon]
  unfold ParseIntoArray
  by_cases h : s.data = []
  · simp [h]
  · have h2 : ¬ (";".data = []) := by decide
    have h3 : ";".data = [';'] := rfl
    simp only [h, h2, or_self, if_false, h3]
    rw [ParseIntoArrayScan_eq_nil]
    simp

theorem ParseIntoArrayScan_mem (l Seg : List Char) (hSeg : ';' ∉ Seg) :
    ∀ seg ∈ ParseIntoArrayScan [';'] true l 0 Seg, seg ≠ "" ∧ ';' ∉ seg.data := by
  induction l generalizing Seg with
  | nil =>
    intro seg hseg
    by_cases h : Seg = []
    · simp [ParseIntoArrayScan, h] at hseg
    · simp only [ParseIntoArrayScan, h, and_false, if_false, List.mem_singleton] at hseg
      subst hseg
      exact ⟨fun e => h (congrArg String.data e), hSeg⟩
  | cons c cs ih =>
    intro seg hseg
    by_cases hc : c = ';'
    · subst hc
      simp only [ParseIntoArrayScan, List.isPrefixOf, beq_self_eq_true, Bool.and_self, if_true,
        List.length_singleton, Nat.sub_self, List.mem_append] at hseg
      rcases hseg with hseg | hseg
      · by_cases h : Seg = []
        · simp [h] at hseg
        · simp only [h, and_false, if_false, List.mem_singleton] at hseg
          subst hseg
          exact ⟨fun e => h (congrArg String.data e), hSeg⟩
      · exact ih [] (by simp) seg hseg
    · have hc' : ¬ (';' = c) := fun h => hc h.symm
      have hb : (';' == c) = false := by simpa using hc'
      simp only [ParseIntoArrayScan, List.isPrefixOf, hb, Bool.false_and] at hseg
      exact ih (Seg ++ [c]) (by simp [hSeg, hc']) seg (by simpa using hseg)

theorem ParseIntoArrayScan_join (l Seg : List Char) :
    ((ParseIntoArrayScan [';'] true l 0 Seg).map String.data).flatten
      = Seg ++ l.filter (fun c => c ≠ ';') := by
  induction l generalizing Seg with
  | nil => by_cases h : Seg = [] <;> simp [ParseIntoArrayScan, h]
  | cons c cs ih =>
    by_cases hc : c = ';'
    · subst hc
      by_cases h : Seg = [] <;> simp [ParseIntoArrayScan, List.isPrefixOf, ih, h]
    · have hc' : ¬ (';' = c) := fun h => hc h.symm
      simp [ParseIntoArrayScan, List.isPrefixOf, ih, hc, hc']

theorem ParseIntoArray_semicolon_scan (s : String) :
    ParseIntoArray s ";" true = ParseIntoArrayScan [';'] true s.data 0 [] := by
  unfold ParseIntoArray
  by_cases h : s.data = []
  · simp [h, ParseIntoArrayScan]
  · have h2 : ¬ (";".data = []) := by decide
    have h3 : ";".data = [';'] := rfl
    simp only [h, h2, or_self, if_false, h3]


/-! ## Paths -/

theorem Combine_three (P Q R : String) : Combine [P, Q, R] = PathAppend (Combine [P, Q]) R := rfl

theorem PathAppend_data (Data Str : String) :
    (PathAppend Data Str).data = Data.data ++ Str.data ∨
    (PathAppend Data Str).data = Data.data ++ '/' :: Str.data := by
  unfold PathAppend
  cases Data.data.getLast? with
  | none => left; simp
  | some c =>
    simp only
    split_ifs with h1 h2 h3 <;> simp [h1]

theorem projectFilesDir_getLast (P : String) :
    (Combine [P, INTERMEDIATE_PROJECTFILES]).data.getLast? = some 's' := by
  have h : (Combine [P, INTERMEDIATE_PROJECTFILES]) = PathAppend P INTERMEDIATE_PROJECTFILES := rfl
  rw [h]
  rcases PathAppend_data P INTERMEDIATE_PROJECTFILES with e | e <;>
    rw [e] <;> simp [INTERMEDIATE_PROJECTFILES, List.getLast?_append]

theorem PathAppend_projectFilesDir (P Leaf : String) (hne : Leaf.data ≠ [])
    (hhead : Leaf.data.head? ≠ some '/') :
    PathAppend (Combine [P, INTERMEDIATE_PROJECTFILES]) Leaf
      = Combine [P, INTERMEDIATE_PROJECTFILES] ++ "/" ++ Leaf := by
  unfold PathAppend
  rw [projectFilesDir_getLast]
  simp [hne, hhead]

theorem PathAppend_getLast (Data Str : String) (c : Char) (h : Str.data.getLast? = some c) :
    (PathAppend Data Str).data.getLast? = some c := by
  have hne : Str.data ≠ [] := by
    intro e
    rw [e] at h
    exact Option.noConfusion h
  rcases PathAppend_data Data Str with e | e <;> rw [e]
  · rw [List.getLast?_append, h]; rfl
  · have : Data.data ++ '/' :: Str.data = (Data.data ++ ['/']) ++ Str.data := by simp
    rw [this, List.getLast?_append, h]; rfl

theorem dropWhile_append_of_all {α : Type} (p : α → Bool) (l rest : List α)
    (h : ∀ c ∈ l, p c = true) : (l ++ rest).dropWhile p = rest.dropWhile p := by
  induction l with
  | nil => rfl
  | cons a l ih =>
    have ha : p a = true := h a (List.mem_cons_self a l)
    simp only [List.cons_append, List.dropWhile_cons, ha, if_true]
    exact ih (fun c hc => h c (List.mem_cons_of_mem a hc))

theorem GetPath_dir_leaf (Dir Leaf : String)
    (h : ∀ c ∈ Leaf.data, c ≠ '/' ∧ c ≠ '\\') :
    GetPath (Dir ++ "/" ++ Leaf) = Dir := by
  unfold GetPath
  apply String.ext
  simp only [String.data_append, List.reverse_append]
  rw [dropWhile_append_of_all]
  · simp
  · intro c hc
    have := h c (List.mem_reverse.mp hc)
    simpa using this

theorem generated_paths_distinct (P N : String) :
    Combine [P, INTERMEDIATE_PROJECTFILES, N ++ ".pro"]
      ≠ Combine [P, INTERMEDIATE_PROJECTFILES, "defines.pri"] ∧
    Combine [P, INTERMEDIATE_PROJECTFILES, N ++ ".pro"]
      ≠ Combine [P, INTERMEDIATE_PROJECTFILES, "includes.pri"] ∧
    Combine [P, INTERMEDIATE_PROJECTFILES, "defines.pri"]
      ≠ Combine [P, INTERMEDIATE_PROJECTFILES, "includes.pri"] := by
  have hpro : (Combine [P, INTERMEDIATE_PROJECTFILES, N ++ ".pro"]).data.getLast? = some 'o' := by
    rw [Combine_three]
    exact PathAppend_getLast _ _ _ (by simp [List.getLast?_append])
  have hdef : (Combine [P, INTERMEDIATE_PROJECTFILES, "defines.pri"]).data.getLast? = some 'i' := by
    rw [Combine_three]
    exact PathAppend_getLast _ _ _ (by decide)
  have hinc : (Combine [P, INTERMEDIATE_PROJECTFILES, "includes.pri"]).data.getLast? = some 'i' := by
    rw [Combine_three]
    exact PathAppend_getLast _ _ _ (by decide)
  refine ⟨?_, ?_, ?_⟩
  · intro e
    rw [e, hdef] at hpro
    exact absurd hpro (by decide)
  · intro e
    rw [e, hinc] at hpro
    exact absurd hpro (by decide)
  · intro e
    rw [Combine_three, Combine_three,
      PathAppend_projectFilesDir P "defines.pri" (by decide) (by decide),
      PathAppend_projectFilesDir P "includes.pri" (by decide) (by decide)] at e
    have := congrArg String.data e
    simp only [String.data_append, List.append_cancel_left_eq] at this
    exact absurd this (by decide)

/-! ## The whole run -/

theorem ok_bind_eff {α β : Type} (es : List Event) (a : α) (f : α → Eff β) :
    (⟨es, .ok a⟩ : Eff α) >>= f = ⟨es ++ (f a).events, (f a).result⟩ := rfl

theorem Run_eq (W : World) (self : FCuteCodeInitializer)
    (hH : self.VCProjXmlCallback.Headers ≠ []) (hS : self.VCProjXmlCallback.Sources ≠ [])
    (hD : nonEmptySegments self.VCProjXmlCallback.Defines ≠ [])
    (hI : nonEmptySegments self.VCProjXmlCallback.Includes ≠ []) :
    Run W self =
      ⟨(CreateProFile self).events ++ ((CreatePriFiles self).events
          ++ (CreateProUserFile W self).events),
        (CreateProUserFile W self).result⟩ := by
  unfold Run
  rw [CreateProFile_eq self hH hS, CreatePriFiles_eq self hD hI]
  simp only [ok_bind_eff]

theorem savedFiles_append (xs ys : List Event) :
    savedFiles (xs ++ ys) = savedFiles xs ++ savedFiles ys := by
  induction xs with
  | nil => rfl
  | cons e es ih => cases e <;> simp [savedFiles, ih]

theorem QtCreatorProfileXmlFile_plain (W : World) (c0 : Char)
    (hNoBackslash : ∀ c ∈ (W.GetEnvironmentVariable "APPDATA").data, c ≠ '\\')
    (hLast : (W.GetEnvironmentVariable "APPDATA").data.getLast? = some c0) (hc0 : c0 ≠ '/') :
    QtCreatorProfileXmlFile W
      = W.GetEnvironmentVariable "APPDATA" ++ "/QtProject/qtcreator/profiles.xml" := by
  have hc1 : c0 ≠ '\\' := by
    apply hNoBackslash
    have := List.mem_of_getLast?_eq_some hLast
    exact this
  have hPA : PathAppend (W.GetEnvironmentVariable "APPDATA") "QtProject/qtcreator/profiles.xml"
      = W.GetEnvironmentVariable "APPDATA" ++ "/QtProject/qtcreator/profiles.xml" := by
    unfold PathAppend
    rw [hLast]
    apply String.ext
    simp [hc0, hc1]
  have hmap : ((W.GetEnvironmentVariable "APPDATA"
        ++ "/QtProject/qtcreator/profiles.xml").data.map
          (fun c => if c = '\\' then '/' else c))
      = (W.GetEnvironmentVariable "APPDATA" ++ "/QtProject/qtcreator/profiles.xml").data := by
    rw [String.data_append, List.map_append]
    congr 1
    conv => rhs; rw [← List.map_id (W.GetEnvironmentVariable "APPDATA").data]
    apply List.map_congr_left
    intro c hc
    simp [hNoBackslash c hc]
  unfold QtCreatorProfileXmlFile
  show NormalizeDirectoryName
    (PathAppend (W.GetEnvironmentVariable "APPDATA") "QtProject/qtcreator/profiles.xml") = _
  rw [hPA]
  unfold NormalizeDirectoryName
  simp only [hmap]
  have hE : EndsWith ⟨(W.GetEnvironmentVariable "APPDATA"
      ++ "/QtProject/qtcreator/profiles.xml").data⟩ "/" = false := by
    unfold EndsWith
    simp [List.isPrefixOf]
  rw [if_neg (by rw [hE]; simp)]

/-! ## The settings scan -/

theorem intercalate_newline_eq_joinLines (xs : List String) :
    "\n".intercalate xs = joinLines xs := by
  have key : ∀ (ys : List String) (acc y : String),
      String.intercalate.go acc "\n" (y :: ys) = acc ++ "\n" ++ joinLines (y :: ys) := by
    intro ys
    induction ys with
    | nil => intro acc y; rfl
    | cons z zs ih =>
      intro acc y
      rw [String.intercalate.go, ih]
      apply String.ext
      simp [joinLines]
  cases xs with
  | nil => rfl
  | cons x xs =>
    cases xs with
    | nil => rfl
    | cons y ys =>
      show String.intercalate.go x "\n" (y :: ys) = _
      rw [key]
      rfl

theorem parseErrorLogged_line (Rest : String) :
    ("Error parsing profiles.xml file at line: ".data.isPrefixOf
      ("Error parsing profiles.xml file at line: " ++ Rest).data) = true := by
  rw [List.isPrefixOf_iff_prefix, String.data_append]
  exact List.prefix_append _ _

theorem error_line_assoc (a b : String) :
    "Error parsing profiles.xml file at line: " ++ a ++ " " ++ b
      = "Error parsing profiles.xml file at line: " ++ (a ++ " " ++ b) := by
  apply String.ext
  simp
/-! ## The claims -/

/-- C1: for non-empty headers `H` and sources `S`, `CreateProFile` saves one
line array in which line 8 is `HEADERS += \`, lines `9 .. 9+|H|-1` are the
entries of `H` in order (entry `i` is `H[i]` followed by ` \` for `i < |H|-1`,
the last is exactly the last header), the block ends there (an empty line and
`SOURCES += \` follow), and after `SOURCES += \` come exactly `|S|` entries of
the same shape up to the end of the array. -/
theorem CreateProFile_list_blocks (self : FCuteCodeInitializer)
    (hH : self.VCProjXmlCallback.Headers ≠ []) (hS : self.VCProjXmlCallback.Sources ≠ []) :
    ∃ Lines : List String,
      CreateProFile self =
        ⟨[.SaveStringArrayToFile Lines
            (Combine [self.SolutionPath, INTERMEDIATE_PROJECTFILES, self.ProjectName ++ ".pro"])],
          .ok ()⟩ ∧
      Lines[8]? = some "HEADERS += \\" ∧
      (∀ i h, i + 1 < self.VCProjXmlCallback.Headers.length →
        self.VCProjXmlCallback.Headers[i]? = some h → Lines[9 + i]? = some (h ++ " \\")) ∧
      Lines[9 + (self.VCProjXmlCallback.Headers.length - 1)]?
        = some (self.VCProjXmlCallback.Headers.getLast hH) ∧
      Lines[9 + self.VCProjXmlCallback.Headers.length]? = some "" ∧
      Lines[10 + self.VCProjXmlCallback.Headers.length]? = some "SOURCES += \\" ∧
      (∀ j s, j + 1 < self.VCProjXmlCallback.Sources.length →
        self.VCProjXmlCallback.Sources[j]? = some s →
        Lines[11 + self.VCProjXmlCallback.Headers.length + j]? = some (s ++ " \\")) ∧
      Lines[11 + self.VCProjXmlCallback.Headers.length
          + (self.VCProjXmlCallback.Sources.length - 1)]?
        = some (self.VCProjXmlCallback.Sources.getLast hS) ∧
      Lines.length
        = 11 + self.VCProjXmlCallback.Headers.length + self.VCProjXmlCallback.Sources.length := by
  refine ⟨_, CreateProFile_eq self hH hS, ?_⟩
  generalize self.VCProjXmlCallback.Headers = H at hH
  generalize self.VCProjXmlCallback.Sources = S at hS
  have hHpos : 0 < H.length := List.length_pos.mpr hH
  obtain ⟨h1, h2, h3, _⟩ := list_block_index
    ["TEMPLATE = app", "", "CONFIG += console c++11", "CONFIG -= app_bundle qt", "",
      "include(defines.pri)", "include(includes.pri)", "", "HEADERS += \\"]
    H (["", "SOURCES += \\"] ++ S.dropLast.map (fun s => s ++ " \\") ++ [S.getLast hS])
    (fun h => h ++ " \\") hH
  obtain ⟨k1, k2, _, k4⟩ := list_block_index
    (["TEMPLATE = app", "", "CONFIG += console c++11", "CONFIG -= app_bundle qt", "",
      "include(defines.pri)", "include(includes.pri)", "", "HEADERS += \\"]
      ++ H.dropLast.map (fun h => h ++ " \\") ++ [H.getLast hH] ++ ["", "SOURCES += \\"])
    S [] (fun s => s ++ " \\") hS
  simp only [List.append_nil] at k1 k2 k4
  simp only [List.append_assoc] at h1 h2 h3 k1 k2 k4 ⊢
  have hA : (["TEMPLATE = app", "", "CONFIG += console c++11", "CONFIG -= app_bundle qt", "",
      "include(defines.pri)", "include(includes.pri)", "", "HEADERS += \\"]
      ++ (H.dropLast.map (fun h => h ++ " \\") ++ ([H.getLast hH] ++ ["", "SOURCES += \\"]))).length
      = 11 + H.length := by
    simp; omega
  rw [hA] at k1 k2 k4
  refine ⟨by simp, ?_, ?_, ?_, ?_, k1, k2, ?_⟩
  · intro i h hi hh
    exact h1 i h hi hh
  · exact h2
  · have e : 9 + H.length = 9 + H.length + 0 := by omega
    rw [e]
    exact (h3 0).trans (by simp)
  · have e : 10 + H.length = 9 + H.length + 1 := by omega
    rw [e]
    exact (h3 1).trans (by simp)
  · rw [k4]; simp



/-- Witness of C1 on `sampleInitializer`: headers `a.h`, `b.h` and source
`a.cpp` give the entries `a.h \`, `b.h` and `a.cpp` in a 14-line array. -/
theorem CreateProFile_list_blocks_witness :
    sampleInitializer.VCProjXmlCallback.Headers ≠ [] ∧
    sampleInitializer.VCProjXmlCallback.Sources ≠ [] ∧
    ∃ Lines : List String,
      CreateProFile sampleInitializer =
        ⟨[.SaveStringArrayToFile Lines "/sol/Intermediate/ProjectFiles/App.pro"], .ok ()⟩ ∧
      Lines[8]? = some "HEADERS += \\" ∧ Lines[9]? = some "a.h \\" ∧ Lines[10]? = some "b.h" ∧
      Lines[11]? = some "" ∧ Lines[12]? = some "SOURCES += \\" ∧ Lines[13]? = some "a.cpp" ∧
      Lines.length = 14 := by
  obtain ⟨Lines, h0, h8, hH, hHl, hE, hT, _, hSl, hLen⟩ :=
    CreateProFile_list_blocks sampleInitializer (by decide) (by decide)
  exact ⟨by decide, by decide, Lines, h0, h8, hH 0 "a.h" (by decide) rfl, hHl, hE, hT, hSl, hLen⟩

/-- C7: for non-empty headers `H` and sources `S`, the one line array
`CreateProFile` saves is the eight fixed lines, then `HEADERS += \` and the
`|H|` header entries, then one empty line, then `SOURCES += \` and the `|S|`
source entries, and nothing else: `11 + |H| + |S|` lines, the headers block
before the sources block. -/
theorem CreateProFile_lines (self : FCuteCodeInitializer)
    (hH : self.VCProjXmlCallback.Headers ≠ []) (hS : self.VCProjXmlCallback.Sources ≠ []) :
    ∃ Lines : List String,
      (CreateProFile self).events =
        [.SaveStringArrayToFile Lines
          (Combine [self.SolutionPath, INTERMEDIATE_PROJECTFILES, self.ProjectName ++ ".pro"])] ∧
      (CreateProFile self).completed = true ∧
      Lines =
        ["TEMPLATE = app", "", "CONFIG += console c++11", "CONFIG -= app_bundle qt", "",
          "include(defines.pri)", "include(includes.pri)", ""]
        ++ ["HEADERS += \\"]
        ++ (self.VCProjXmlCallback.Headers.dropLast.map (fun h => h ++ " \\")
              ++ [self.VCProjXmlCallback.Headers.getLast hH])
        ++ [""]
        ++ ["SOURCES += \\"]
        ++ (self.VCProjXmlCallback.Sources.dropLast.map (fun s => s ++ " \\")
              ++ [self.VCProjXmlCallback.Sources.getLast hS]) ∧
      Lines.length
        = 11 + self.VCProjXmlCallback.Headers.length + self.VCProjXmlCallback.Sources.length := by
  have hHpos : 0 < self.VCProjXmlCallback.Headers.length := List.length_pos.mpr hH
  have hSpos : 0 < self.VCProjXmlCallback.Sources.length := List.length_pos.mpr hS
  refine ⟨_, ?_, ?_, rfl, ?_⟩
  · rw [CreateProFile_eq self hH hS]
    simp
  · rw [CreateProFile_eq self hH hS]
    rfl
  · simp
    omega

/-- Witness of C7 on `sampleInitializer`: the whole 14-line array. -/
theorem CreateProFile_lines_witness :
    sampleInitializer.VCProjXmlCallback.Headers ≠ [] ∧
    sampleInitializer.VCProjXmlCallback.Sources ≠ [] ∧
    (CreateProFile sampleInitializer).events =
      [.SaveStringArrayToFile
        ["TEMPLATE = app", "", "CONFIG += console c++11", "CONFIG -= app_bundle qt", "",
          "include(defines.pri)", "include(includes.pri)", "",
          "HEADERS += \\", "a.h \\", "b.h", "", "SOURCES += \\", "a.cpp"]
        "/sol/Intermediate/ProjectFiles/App.pro"] := by
  obtain ⟨Lines, hE, _, hL, _⟩ := CreateProFile_lines sampleInitializer (by decide) (by decide)
  refine ⟨by decide, by decide, ?_⟩
  rw [hE, hL]
  decide

/-- C9: an empty collected list makes the step that consumes it fail at the
last-element access before it saves the file built from that list.
`CreateProFile` with no header or no source saves nothing and fails in `Last`;
`CreatePriFiles` with a defines string that is empty or only `;` saves nothing
and fails in `Last`; with a surviving define and an includes string that is
empty or only `;` it saves `defines.pri`, then fails in `Last` without saving
`includes.pri`. -/
theorem empty_list_fails_at_Last (self : FCuteCodeInitializer) :
    ((self.VCProjXmlCallback.Headers = [] ∨ self.VCProjXmlCallback.Sources = []) →
      CreateProFile self = ⟨[], .error .Last⟩) ∧
    ((∀ c ∈ self.VCProjXmlCallback.Defines.data, c = ';') →
      CreatePriFiles self = ⟨[], .error .Last⟩) ∧
    ((∃ c ∈ self.VCProjXmlCallback.Defines.data, c ≠ ';') →
      (∀ c ∈ self.VCProjXmlCallback.Includes.data, c = ';') →
      ∃ Lines : List String,
        CreatePriFiles self =
          ⟨[.SaveStringArrayToFile Lines
              (Combine [self.SolutionPath, INTERMEDIATE_PROJECTFILES, "defines.pri"])],
            .error .Last⟩) := by
  refine ⟨?_, ?_, ?_⟩
  · intro h
    by_cases hH : self.VCProjXmlCallback.Headers = []
    · exact CreateProFile_no_headers self hH
    · exact CreateProFile_no_sources self hH (h.resolve_left hH)
  · intro h
    exact CreatePriFiles_no_defines self ((nonEmptySegments_eq_nil _).mpr h)
  · intro hD hI
    have hD' : nonEmptySegments self.VCProjXmlCallback.Defines ≠ [] := by
      intro e
      obtain ⟨c, hc, hne⟩ := hD
      exact hne ((nonEmptySegments_eq_nil _).mp e c hc)
    exact ⟨_, CreatePriFiles_no_includes self hD' ((nonEmptySegments_eq_nil _).mpr hI)⟩

/-- Witness of C9: with defines `A;B` and includes `;;`, `defines.pri` is saved
and the step then fails in `Last`; a generator with no source saves no
project file. -/
theorem empty_list_fails_at_Last_witness :
    CreateProFile sampleNoIncludes = ⟨[], .error .Last⟩ ∧
    ∃ Lines : List String,
      CreatePriFiles sampleNoIncludes =
        ⟨[.SaveStringArrayToFile Lines "/sol/Intermediate/ProjectFiles/defines.pri"],
          .error .Last⟩ := by
  obtain ⟨h1, _, h3⟩ := empty_list_fails_at_Last sampleNoIncludes
  exact ⟨h1 (Or.inr rfl), h3 ⟨'A', by decide, by decide⟩ (by decide)⟩

/-- C8: for a defines string with at least one non-empty `;`-separated
segment, the first file `CreatePriFiles` saves is `defines.pri` with the three
banner lines, `DEFINES += \`, then one line per surviving segment in order,
each the segment in double quotes followed by ` \` except the last, which is
the quoted segment alone; when the includes string has a surviving segment
too, the step saves exactly these two files, `includes.pri` having the same
shape under the title `INCLUDEPATH += \`. -/
theorem CreatePriFiles_lines (self : FCuteCodeInitializer)
    (hD : nonEmptySegments self.VCProjXmlCallback.Defines ≠ []) :
    (CreatePriFiles self).events.head? =
      some (.SaveStringArrayToFile
        (["######################################################################",
          "########## This file has been generated by CuteCodeAccess ############",
          "######################################################################"]
          ++ ["DEFINES += \\"]
          ++ (nonEmptySegments self.VCProjXmlCallback.Defines).dropLast.map
              (fun d => "\"" ++ d ++ "\"" ++ " \\")
          ++ ["\"" ++ (nonEmptySegments self.VCProjXmlCallback.Defines).getLast hD ++ "\""])
        (Combine [self.SolutionPath, INTERMEDIATE_PROJECTFILES, "defines.pri"])) ∧
    ∀ hI : nonEmptySegments self.VCProjXmlCallback.Includes ≠ [],
      (CreatePriFiles self).events =
        [.SaveStringArrayToFile
          (["######################################################################",
            "########## This file has been generated by CuteCodeAccess ############",
            "######################################################################"]
            ++ ["DEFINES += \\"]
            ++ (nonEmptySegments self.VCProjXmlCallback.Defines).dropLast.map
                (fun d => "\"" ++ d ++ "\"" ++ " \\")
            ++ ["\"" ++ (nonEmptySegments self.VCProjXmlCallback.Defines).getLast hD ++ "\""])
          (Combine [self.SolutionPath, INTERMEDIATE_PROJECTFILES, "defines.pri"]),
         .SaveStringArrayToFile
          (["######################################################################",
            "########## This file has been generated by CuteCodeAccess ############",
            "######################################################################"]
            ++ ["INCLUDEPATH += \\"]
            ++ (nonEmptySegments self.VCProjXmlCallback.Includes).dropLast.map
                (fun d => "\"" ++ d ++ "\"" ++ " \\")
            ++ ["\"" ++ (nonEmptySegments self.VCProjXmlCallback.Includes).getLast hI ++ "\""])
          (Combine [self.SolutionPath, INTERMEDIATE_PROJECTFILES, "includes.pri"])] ∧
      (CreatePriFiles self).completed = true := by
  have q : ∀ d : String, "\"" ++ d ++ "\"" ++ " \\" = "\"" ++ d ++ "\" \\" := by
    intro d
    apply String.ext
    simp
  simp only [q]
  refine ⟨?_, ?_⟩
  · by_cases hI : nonEmptySegments self.VCProjXmlCallback.Includes = []
    · rw [CreatePriFiles_no_includes self hD hI]
      simp
    · rw [CreatePriFiles_eq self hD hI]
      simp
  · intro hI
    rw [CreatePriFiles_eq self hD hI]
    exact ⟨by simp, rfl⟩

/-- Witness of C8 on `sampleInitializer` (defines `A;;B=1;`, includes
`/inc;/inc2`): the two saved arrays. -/
theorem CreatePriFiles_lines_witness :
    nonEmptySegments sampleInitializer.VCProjXmlCallback.Defines ≠ [] ∧
    nonEmptySegments sampleInitializer.VCProjXmlCallback.Includes ≠ [] ∧
    (CreatePriFiles sampleInitializer).events =
      [.SaveStringArrayToFile
        ["######################################################################",
         "########## This file has been generated by CuteCodeAccess ############",
         "######################################################################",
         "DEFINES += \\", "\"A\" \\", "\"B=1\""]
        "/sol/Intermediate/ProjectFiles/defines.pri",
       .SaveStringArrayToFile
        ["######################################################################",
         "########## This file has been generated by CuteCodeAccess ############",
         "######################################################################",
         "INCLUDEPATH += \\", "\"/inc\" \\", "\"/inc2\""]
        "/sol/Intermediate/ProjectFiles/includes.pri"] := by
  refine ⟨by decide, by decide, ?_⟩
  rw [((CreatePriFiles_lines sampleInitializer (by decide)).2 (by decide)).1]
  decide

/-- C2: for every string, splitting on `;` with empty-segment culling gives
exactly the non-empty `;`-separated segments in their original order (no
zero-length segment, no `;` inside a segment, and the segments laid end to end
are the string without its `;`). The entries `CreatePriFiles` saves follow
that order, one per surviving segment: in `defines.pri` (saved when a define
survives) line `4 + i` is the quoted segment `i` of the defines string, with
or without the continuation marker, and there are no further lines; the same
holds for `includes.pri` (saved when a define and an include survive) and the
includes string. -/
theorem ParseIntoArray_culls_and_keeps_order (self : FCuteCodeInitializer) :
    (∀ s : String,
      ParseIntoArray s ";" true = nonEmptySegments s ∧
      (∀ seg ∈ ParseIntoArray s ";" true, seg ≠ "" ∧ ';' ∉ seg.data) ∧
      ((ParseIntoArray s ";" true).map String.data).flatten
        = s.data.filter (fun c => c ≠ ';')) ∧
    (ParseIntoArray self.VCProjXmlCallback.Defines ";" true ≠ [] →
      ∃ Lines : List String,
        (CreatePriFiles self).events[0]? =
          some (.SaveStringArrayToFile Lines
            (Combine [self.SolutionPath, INTERMEDIATE_PROJECTFILES, "defines.pri"])) ∧
        Lines.length = 4 + (ParseIntoArray self.VCProjXmlCallback.Defines ";" true).length ∧
        ∀ i seg, (ParseIntoArray self.VCProjXmlCallback.Defines ";" true)[i]? = some seg →
          Lines[4 + i]? = some ("\"" ++ seg ++ "\"" ++ " \\") ∨
          Lines[4 + i]? = some ("\"" ++ seg ++ "\"")) ∧
    (ParseIntoArray self.VCProjXmlCallback.Defines ";" true ≠ [] →
      ParseIntoArray self.VCProjXmlCallback.Includes ";" true ≠ [] →
      ∃ Lines : List String,
        (CreatePriFiles self).events[1]? =
          some (.SaveStringArrayToFile Lines
            (Combine [self.SolutionPath, INTERMEDIATE_PROJECTFILES, "includes.pri"])) ∧
        Lines.length = 4 + (ParseIntoArray self.VCProjXmlCallback.Includes ";" true).length ∧
        ∀ i seg, (ParseIntoArray self.VCProjXmlCallback.Includes ";" true)[i]? = some seg →
          Lines[4 + i]? = some ("\"" ++ seg ++ "\"" ++ " \\") ∨
          Lines[4 + i]? = some ("\"" ++ seg ++ "\"")) := by
  have entries : ∀ (T : String) (xs : List String) (hx : xs ≠ []),
      (["######################################################################",
        "########## This file has been generated by CuteCodeAccess ############",
        "######################################################################", T]
        ++ xs.dropLast.map (fun d => "\"" ++ d ++ "\" \\")
        ++ ["\"" ++ xs.getLast hx ++ "\""]).length = 4 + xs.length ∧
      ∀ i seg, xs[i]? = some seg →
        (["######################################################################",
          "########## This file has been generated by CuteCodeAccess ############",
          "######################################################################", T]
          ++ xs.dropLast.map (fun d => "\"" ++ d ++ "\" \\")
          ++ ["\"" ++ xs.getLast hx ++ "\""])[4 + i]? = some ("\"" ++ seg ++ "\"" ++ " \\") ∨
        (["######################################################################",
          "########## This file has been generated by CuteCodeAccess ############",
          "######################################################################", T]
          ++ xs.dropLast.map (fun d => "\"" ++ d ++ "\" \\")
          ++ ["\"" ++ xs.getLast hx ++ "\""])[4 + i]? = some ("\"" ++ seg ++ "\"") := by
    intro T xs hx
    have hpos : 0 < xs.length := List.length_pos.mpr hx
    refine ⟨by simp; omega, ?_⟩
    intro i seg hseg
    have hi : i < xs.length := by
      by_contra hcon
      rw [List.getElem?_eq_none (by omega)] at hseg
      exact Option.noConfusion hseg
    have q : ∀ d : String, "\"" ++ d ++ "\"" ++ " \\" = "\"" ++ d ++ "\" \\" := by
      intro d
      apply String.ext
      simp
    by_cases hlast : i + 1 < xs.length
    · left
      rw [List.append_assoc, List.getElem?_append_right (by simp),
        List.getElem?_append_left (by simp; omega), List.getElem?_map]
      have : xs.dropLast[4 + i - [
        "######################################################################",
        "########## This file has been generated by CuteCodeAccess ############",
        "######################################################################", T].length]?
          = some seg := by
        rw [List.dropLast_eq_take, List.getElem?_take]
        simp [hseg]
        omega
      rw [this, q]
      rfl
    · right
      have hi' : i = xs.length - 1 := by omega
      rw [List.getElem?_append_right (by simp; omega)]
      have hg : xs.getLast hx = seg := by
        have := List.getLast?_eq_getLast xs hx
        rw [List.getLast?_eq_getElem?, ← hi', hseg] at this
        exact (Option.some.inj this).symm
      simp only [hg, hi', List.length_append, List.length_map, List.length_dropLast,
        List.length_cons, List.length_nil]
      have e : 4 + (xs.length - 1) - (0 + 1 + 1 + 1 + 1 + (xs.length - 1)) = 0 := by omega
      rw [e]
      rfl
  refine ⟨?_, ?_, ?_⟩
  · intro s
    refine ⟨ParseIntoArray_semicolon s, ?_, ?_⟩
    · rw [ParseIntoArray_semicolon_scan]
      exact ParseIntoArrayScan_mem s.data [] (by simp)
    · rw [ParseIntoArray_semicolon_scan, ParseIntoArrayScan_join]
      simp
  · intro hD
    rw [ParseIntoArray_semicolon] at hD ⊢
    refine ⟨_, ?_, entries "DEFINES += \\" _ hD⟩
    by_cases hI : nonEmptySegments self.VCProjXmlCallback.Includes = []
    · rw [CreatePriFiles_no_includes self hD hI]
      rfl
    · rw [CreatePriFiles_eq self hD hI]
      rfl
  · intro hD hI
    rw [ParseIntoArray_semicolon] at hD hI ⊢
    refine ⟨_, ?_, entries "INCLUDEPATH += \\" _ hI⟩
    rw [CreatePriFiles_eq self hD hI]
    rfl

/-- Witness of C2: `A;;B=1;` splits into `A` and `B=1`, and `defines.pri` of
`sampleInitializer` has these two entries after its four head lines. -/
theorem ParseIntoArray_culls_and_keeps_order_witness :
    ParseIntoArray "A;;B=1;" ";" true = ["A", "B=1"] ∧
    ParseIntoArray sampleInitializer.VCProjXmlCallback.Defines ";" true ≠ [] ∧
    ∃ Lines : List String,
      (CreatePriFiles sampleInitializer).events[0]? =
        some (.SaveStringArrayToFile Lines "/sol/Intermediate/ProjectFiles/defines.pri") ∧
      Lines.length = 6 ∧
      (Lines[4]? = some "\"A\" \\" ∨ Lines[4]? = some "\"A\"") ∧
      (Lines[5]? = some "\"B=1\" \\" ∨ Lines[5]? = some "\"B=1\"") := by
  obtain ⟨hParse, hDef, _⟩ := ParseIntoArray_culls_and_keeps_order sampleInitializer
  have hD : ParseIntoArray sampleInitializer.VCProjXmlCallback.Defines ";" true ≠ [] := by
    decide
  obtain ⟨Lines, hE, hLen, hEntries⟩ := hDef hD
  refine ⟨(hParse "A;;B=1;").1.trans (by decide), hD, Lines, hE, hLen, ?_, ?_⟩
  · exact hEntries 0 "A" (by decide)
  · exact hEntries 1 "B=1" (by decide)

/-- C3: when the four collected lists are non-empty (the headers and the
sources; for the defines and the includes, as C9 spells it out, the string
has a segment that is not empty) and the kit name is empty, `CreateProUserFile`
only logs that the kit name must be set (no environment read, no file check,
no load, no XML parse, no save) and returns; the whole `Run` is the save of
the `.pro` file by `CreateProFile`, the saves of `defines.pri` and
`includes.pri` by `CreatePriFiles`, each once and to three different paths,
then that log line. -/
theorem Run_empty_kit_name (W : World) (self : FCuteCodeInitializer)
    (Settings : UCuteCodeEditorSettings)
    (hH : self.VCProjXmlCallback.Headers ≠ []) (hS : self.VCProjXmlCallback.Sources ≠ [])
    (hD : nonEmptySegments self.VCProjXmlCallback.Defines ≠ [])
    (hI : nonEmptySegments self.VCProjXmlCallback.Includes ≠ [])
    (hSet : W.GetDefaultSettings = some Settings) (hKit : Settings.UnrealKitName = "") :
    CreateProUserFile W self =
      ⟨[.Log "Unreal kit name must be set to create project files correctly"], .ok ()⟩ ∧
    ∃ ProLines DefinesLines IncludesLines : List String,
      (CreateProFile self).events =
        [.SaveStringArrayToFile ProLines
          (Combine [self.SolutionPath, INTERMEDIATE_PROJECTFILES, self.ProjectName ++ ".pro"])] ∧
      (CreatePriFiles self).events =
        [.SaveStringArrayToFile DefinesLines
          (Combine [self.SolutionPath, INTERMEDIATE_PROJECTFILES, "defines.pri"]),
         .SaveStringArrayToFile IncludesLines
          (Combine [self.SolutionPath, INTERMEDIATE_PROJECTFILES, "includes.pri"])] ∧
      (Run W self).events =
        [.SaveStringArrayToFile ProLines
          (Combine [self.SolutionPath, INTERMEDIATE_PROJECTFILES, self.ProjectName ++ ".pro"]),
         .SaveStringArrayToFile DefinesLines
          (Combine [self.SolutionPath, INTERMEDIATE_PROJECTFILES, "defines.pri"]),
         .SaveStringArrayToFile IncludesLines
          (Combine [self.SolutionPath, INTERMEDIATE_PROJECTFILES, "includes.pri"]),
         .Log "Unreal kit name must be set to create project files correctly"] ∧
      (Run W self).completed = true ∧
      Combine [self.SolutionPath, INTERMEDIATE_PROJECTFILES, self.ProjectName ++ ".pro"]
        ≠ Combine [self.SolutionPath, INTERMEDIATE_PROJECTFILES, "defines.pri"] ∧
      Combine [self.SolutionPath, INTERMEDIATE_PROJECTFILES, self.ProjectName ++ ".pro"]
        ≠ Combine [self.SolutionPath, INTERMEDIATE_PROJECTFILES, "includes.pri"] ∧
      Combine [self.SolutionPath, INTERMEDIATE_PROJECTFILES, "defines.pri"]
        ≠ Combine [self.SolutionPath, INTERMEDIATE_PROJECTFILES, "includes.pri"] := by
  have hU := CreateProUserFile_no_kit W self Settings hSet hKit
  refine ⟨hU, ?_⟩
  rw [Run_eq W self hH hS hD hI, hU, CreateProFile_eq self hH hS, CreatePriFiles_eq self hD hI]
  exact ⟨_, _, _, rfl, rfl, rfl, rfl, generated_paths_distinct _ _⟩

/-- Witness of C3: `sampleInitializer` run where the kit name is empty. -/
theorem Run_empty_kit_name_witness :
    sampleInitializer.VCProjXmlCallback.Headers ≠ [] ∧
    nonEmptySegments sampleInitializer.VCProjXmlCallback.Defines ≠ [] ∧
    ∃ ProLines DefinesLines IncludesLines : List String,
      (Run sampleWorldNoKit sampleInitializer).events =
        [.SaveStringArrayToFile ProLines "/sol/Intermediate/ProjectFiles/App.pro",
         .SaveStringArrayToFile DefinesLines "/sol/Intermediate/ProjectFiles/defines.pri",
         .SaveStringArrayToFile IncludesLines "/sol/Intermediate/ProjectFiles/includes.pri",
         .Log "Unreal kit name must be set to create project files correctly"] := by
  obtain ⟨_, ProLines, DefinesLines, IncludesLines, _, _, hRun, _⟩ :=
    Run_empty_kit_name sampleWorldNoKit sampleInitializer { UnrealKitName := "" }
      (by decide) (by decide) (by decide) (by decide) rfl rfl
  exact ⟨by decide, by decide, ProLines, DefinesLines, IncludesLines, hRun⟩

/-- C5: with a non-empty kit name and no file at the computed settings path,
`CreateProUserFile` reads `APPDATA`, checks the path, logs the one line
`"<path>" not found`, and does nothing else: no load, no XML parse, no `uuid`
line, no save. The path is `<APPDATA>/QtProject/qtcreator/profiles.xml` for a
roaming directory written without backslashes and without a trailing `/`;
backslashes in it are turned into `/`. -/
theorem CreateProUserFile_settings_file_missing (W : World) (self : FCuteCodeInitializer)
    (Settings : UCuteCodeEditorSettings)
    (hSet : W.GetDefaultSettings = some Settings) (hKit : Settings.UnrealKitName ≠ "")
    (hNo : W.FileExists (QtCreatorProfileXmlFile W) = false) :
    CreateProUserFile W self =
      ⟨[.GetEnvironmentVariable "APPDATA",
        .FileExists (QtCreatorProfileXmlFile W),
        .Log ("\"" ++ QtCreatorProfileXmlFile W ++ "\" not found")], .ok ()⟩ ∧
    (∀ c0 : Char, (∀ c ∈ (W.GetEnvironmentVariable "APPDATA").data, c ≠ '\\') →
      (W.GetEnvironmentVariable "APPDATA").data.getLast? = some c0 → c0 ≠ '/' →
      QtCreatorProfileXmlFile W
        = W.GetEnvironmentVariable "APPDATA" ++ "/QtProject/qtcreator/profiles.xml") :=
  ⟨CreateProUserFile_not_found W self Settings hSet hKit hNo,
    fun c0 h1 h2 h3 => QtCreatorProfileXmlFile_plain W c0 h1 h2 h3⟩

/-- Witness of C5: `APPDATA` is `C:\Users\u\AppData\Roaming` and the settings
file is missing. -/
theorem CreateProUserFile_settings_file_missing_witness :
    sampleWorldNoFile.FileExists (QtCreatorProfileXmlFile sampleWorldNoFile) = false ∧
    CreateProUserFile sampleWorldNoFile sampleInitializer =
      ⟨[.GetEnvironmentVariable "APPDATA",
        .FileExists "C:/Users/u/AppData/Roaming/QtProject/qtcreator/profiles.xml",
        .Log "\"C:/Users/u/AppData/Roaming/QtProject/qtcreator/profiles.xml\" not found"],
       .ok ()⟩ :=
  ⟨rfl, (CreateProUserFile_settings_file_missing sampleWorldNoFile
    sampleInitializer { UnrealKitName := "Unreal" } rfl (by decide) rfl).1⟩

/-- C6, as the code has it: for every solution path `P` and project name `N`
the constructor reads `Combine(P, INTERMEDIATE_PROJECTFILES, N + ".vcxproj")`
and, the collected values being non-empty, `Run` saves exactly the three files
`Combine(P, INTERMEDIATE_PROJECTFILES, N + ".pro")`, `.../defines.pri` and
`.../includes.pri`, in that order; when `N` holds no path separator the
directory of all four is `Combine(P, INTERMEDIATE_PROJECTFILES)`; for `/sol`
and `App` the four paths are the ones under `/sol/Intermediate/ProjectFiles`. -/
theorem generated_file_paths (W : World) (P N : String) :
    (∃ (self : FCuteCodeInitializer) (Logs : List Event),
      FCuteCodeInitializer.new W P N =
        ⟨.ParseXmlFile (Combine [P, INTERMEDIATE_PROJECTFILES, N ++ ".vcxproj"]) "" :: Logs,
          .ok self⟩ ∧
      (∀ e ∈ Logs, ∃ m, e = .Log m) ∧
      self.SolutionPath = P ∧ self.ProjectName = N ∧
      (self.VCProjXmlCallback.Headers ≠ [] → self.VCProjXmlCallback.Sources ≠ [] →
        nonEmptySegments self.VCProjXmlCallback.Defines ≠ [] →
        nonEmptySegments self.VCProjXmlCallback.Includes ≠ [] →
        (savedFiles (Run W self).events).map Prod.fst =
          [Combine [P, INTERMEDIATE_PROJECTFILES, N ++ ".pro"],
           Combine [P, INTERMEDIATE_PROJECTFILES, "defines.pri"],
           Combine [P, INTERMEDIATE_PROJECTFILES, "includes.pri"]])) ∧
    ((∀ c ∈ N.data, c ≠ '/' ∧ c ≠ '\\') →
      GetPath (Combine [P, INTERMEDIATE_PROJECTFILES, N ++ ".vcxproj"])
        = Combine [P, INTERMEDIATE_PROJECTFILES] ∧
      GetPath (Combine [P, INTERMEDIATE_PROJECTFILES, N ++ ".pro"])
        = Combine [P, INTERMEDIATE_PROJECTFILES] ∧
      GetPath (Combine [P, INTERMEDIATE_PROJECTFILES, "defines.pri"])
        = Combine [P, INTERMEDIATE_PROJECTFILES] ∧
      GetPath (Combine [P, INTERMEDIATE_PROJECTFILES, "includes.pri"])
        = Combine [P, INTERMEDIATE_PROJECTFILES]) ∧
    (Combine ["/sol", INTERMEDIATE_PROJECTFILES, "App" ++ ".vcxproj"]
        = "/sol/Intermediate/ProjectFiles/App.vcxproj" ∧
      Combine ["/sol", INTERMEDIATE_PROJECTFILES, "App" ++ ".pro"]
        = "/sol/Intermediate/ProjectFiles/App.pro" ∧
      Combine ["/sol", INTERMEDIATE_PROJECTFILES, "defines.pri"]
        = "/sol/Intermediate/ProjectFiles/defines.pri" ∧
      Combine ["/sol", INTERMEDIATE_PROJECTFILES, "includes.pri"]
        = "/sol/Intermediate/ProjectFiles/includes.pri") := by
  refine ⟨?_, ?_, by decide⟩
  · refine ⟨{ SolutionPath := P, ProjectName := N,
              VCProjXmlCallback := (W.ParseVCProjXml
                (Combine [P, INTERMEDIATE_PROJECTFILES, N ++ ".vcxproj"]) "").1 },
            (if (W.ParseVCProjXml
                (Combine [P, INTERMEDIATE_PROJECTFILES, N ++ ".vcxproj"]) "").2.OutErrorMessage ≠ ""
              then [.Log ("Error parsing .vcxproj file at line: "
                ++ toString (W.ParseVCProjXml
                    (Combine [P, INTERMEDIATE_PROJECTFILES, N ++ ".vcxproj"]) "").2.OutErrorLineNumber
                ++ " " ++ (W.ParseVCProjXml
                    (Combine [P, INTERMEDIATE_PROJECTFILES, N ++ ".vcxproj"]) "").2.OutErrorMessage)]
              else []), ?_, ?_, rfl, rfl, ?_⟩
    · unfold FCuteCodeInitializer.new
      simp only [emit_bind_eff]
      split_ifs with h <;> simp [emit]
    · intro e he
      split_ifs at he with h
      · exact ⟨_, List.mem_singleton.mp he⟩
      · exact absurd he (List.not_mem_nil e)
    · intro hH hS hD hI
      rw [Run_eq W _ hH hS hD hI, savedFiles_append, savedFiles_append,
        savedFiles_CreateProUserFile, CreateProFile_eq _ hH hS, CreatePriFiles_eq _ hD hI]
      rfl
  · intro hN
    have hLeaf : ∀ Ext : String, (∀ c ∈ Ext.data, c ≠ '/' ∧ c ≠ '\\') → Ext.data ≠ [] →
        GetPath (Combine [P, INTERMEDIATE_PROJECTFILES, N ++ Ext])
          = Combine [P, INTERMEDIATE_PROJECTFILES] := by
      intro Ext hExt hne
      have hall : ∀ c ∈ (N ++ Ext).data, c ≠ '/' ∧ c ≠ '\\' := by
        intro c hc
        rw [String.data_append, List.mem_append] at hc
        exact hc.elim (hN c) (hExt c)
      have hne' : (N ++ Ext).data ≠ [] := by
        rw [String.data_append]
        simp [hne]
      have hhead : (N ++ Ext).data.head? ≠ some '/' := by
        intro e
        exact (hall '/' (List.mem_of_mem_head? e)).1 rfl
      rw [Combine_three, PathAppend_projectFilesDir P _ hne' hhead]
      exact GetPath_dir_leaf _ _ hall
    have hFixed : ∀ Leaf : String, (∀ c ∈ Leaf.data, c ≠ '/' ∧ c ≠ '\\') → Leaf.data ≠ [] →
        Leaf.data.head? ≠ some '/' →
        GetPath (Combine [P, INTERMEDIATE_PROJECTFILES, Leaf])
          = Combine [P, INTERMEDIATE_PROJECTFILES] := by
      intro Leaf hall hne hhead
      rw [Combine_three, PathAppend_projectFilesDir P _ hne hhead]
      exact GetPath_dir_leaf _ _ hall
    exact ⟨hLeaf ".vcxproj" (by decide) (by decide), hLeaf ".pro" (by decide) (by decide),
      hFixed "defines.pri" (by decide) (by decide) (by decide),
      hFixed "includes.pri" (by decide) (by decide) (by decide)⟩

/-- Witness of C6 (amended) for `/sol` and `App`: the file read, the three
files saved and their common directory. -/
theorem generated_file_paths_witness :
    (∀ c ∈ "App".data, c ≠ '/' ∧ c ≠ '\\') ∧
    (∃ self : FCuteCodeInitializer,
      (FCuteCodeInitializer.new sampleWorld "/sol" "App").result = .ok self ∧
      (FCuteCodeInitializer.new sampleWorld "/sol" "App").events
        = [.ParseXmlFile "/sol/Intermediate/ProjectFiles/App.vcxproj" ""] ∧
      (savedFiles (Run sampleWorld self).events).map Prod.fst =
        ["/sol/Intermediate/ProjectFiles/App.pro",
         "/sol/Intermediate/ProjectFiles/defines.pri",
         "/sol/Intermediate/ProjectFiles/includes.pri"]) ∧
    GetPath "/sol/Intermediate/ProjectFiles/App.vcxproj" = "/sol/Intermediate/ProjectFiles" ∧
    GetPath "/sol/Intermediate/ProjectFiles/includes.pri" = "/sol/Intermediate/ProjectFiles" := by
  obtain ⟨⟨self, Logs, hNew, _, _, _, hRun⟩, hDir, hA, _, _, hD⟩ :=
    generated_file_paths sampleWorld "/sol" "App"
  have hN : ∀ c ∈ "App".data, c ≠ '/' ∧ c ≠ '\\' := by decide
  have hself : self = sampleInitializer := by
    have h2 := congrArg Eff.result hNew
    have h3 : (FCuteCodeInitializer.new sampleWorld "/sol" "App").result
        = .ok sampleInitializer := rfl
    rw [h3] at h2
    exact (Except.ok.inj h2).symm
  subst hself
  obtain ⟨h1, _, _, h4⟩ := hDir hN
  rw [hA] at h1
  rw [hD] at h4
  refine ⟨hN, ⟨sampleInitializer, rfl, rfl, ?_⟩, h1, h4⟩
  have := hRun (by decide) (by decide) (by decide) (by decide)
  rw [this]
  decide

/-- Counterexample to C6 as stated: for solution path `/sol` and project name
`sub/App` the constructor reads `/sol/Intermediate/ProjectFiles/sub/App.vcxproj`
while `Run` saves `defines.pri` and `includes.pri` in
`/sol/Intermediate/ProjectFiles`, which is not the directory of the vcxproj. -/
theorem same_directory_counterexample :
    (FCuteCodeInitializer.new sampleWorld "/sol" "sub/App").events
      = [.ParseXmlFile "/sol/Intermediate/ProjectFiles/sub/App.vcxproj" ""] ∧
    (FCuteCodeInitializer.new sampleWorld "/sol" "sub/App").result
      = .ok { sampleInitializer with ProjectName := "sub/App" } ∧
    (savedFiles (Run sampleWorld { sampleInitializer with ProjectName := "sub/App" }).events).map
        Prod.fst =
      ["/sol/Intermediate/ProjectFiles/sub/App.pro",
       "/sol/Intermediate/ProjectFiles/defines.pri",
       "/sol/Intermediate/ProjectFiles/includes.pri"] ∧
    GetPath "/sol/Intermediate/ProjectFiles/sub/App.vcxproj"
      = "/sol/Intermediate/ProjectFiles/sub" ∧
    GetPath "/sol/Intermediate/ProjectFiles/defines.pri" = "/sol/Intermediate/ProjectFiles" ∧
    GetPath "/sol/Intermediate/ProjectFiles/sub/App.vcxproj"
      ≠ GetPath "/sol/Intermediate/ProjectFiles/defines.pri" := by
  refine ⟨rfl, rfl, ?_, by decide, by decide, by decide⟩
  decide

/-- When the scan is reached, the parse-error line is logged exactly when the
message is non-empty and `operator!=`, which ignores letter case, tells it
apart from the abort text. -/
theorem parseErrorLogged_iff_ignoring_case (W : World) (self : FCuteCodeInitializer)
    (Settings : UCuteCodeEditorSettings) (L : List String) (Uuid : String) (Out : XmlOutcome)
    (hSet : W.GetDefaultSettings = some Settings) (hKit : Settings.UnrealKitName ≠ "")
    (hYes : W.FileExists (QtCreatorProfileXmlFile W) = true)
    (hL : W.LoadFileToStringArray (QtCreatorProfileXmlFile W) = L)
    (hLen : 3 ≤ L.length) (hBuf : joinLines (L.drop 3) ≠ "")
    (hP : W.ParseProfilesXml "" (joinLines (L.drop 3)) = (Uuid, Out)) :
    (parseErrorLogged (CreateProUserFile W self).events = true ↔
      Out.OutErrorMessage ≠ "" ∧
      Out.OutErrorMessage.data.map Char.toLower
        ≠ "User aborted the parsing process".data.map Char.toLower) ∧
    (Out.OutErrorMessage = "User aborted the parsing process" →
      parseErrorLogged (CreateProUserFile W self).events = false) ∧
    (parseErrorLogged (CreateProUserFile W self).events = true →
      Event.Log ("Error parsing profiles.xml file at line: "
        ++ toString Out.OutErrorLineNumber ++ " " ++ Out.OutErrorMessage)
        ∈ (CreateProUserFile W self).events) := by
  rw [← intercalate_newline_eq_joinLines] at hBuf hP
  rw [CreateProUserFile_parsed W self Settings L Uuid Out hSet hKit hYes hL hLen hBuf hP]
  have hcond : (Out.OutErrorMessage ≠ "" ∧
      FStringNotEqual Out.OutErrorMessage "User aborted the parsing process" = true) ↔
      (Out.OutErrorMessage ≠ "" ∧
        Out.OutErrorMessage.data.map Char.toLower
          ≠ "User aborted the parsing process".data.map Char.toLower) := by
    unfold FStringNotEqual
    simp
  rw [← hcond]
  by_cases h : Out.OutErrorMessage ≠ "" ∧
      FStringNotEqual Out.OutErrorMessage "User aborted the parsing process" = true
  · have hlog : parseErrorLogged
        ([Event.GetEnvironmentVariable "APPDATA",
          Event.FileExists (QtCreatorProfileXmlFile W),
          Event.LoadFileToStringArray (QtCreatorProfileXmlFile W),
          Event.ParseXmlFile "" ("\n".intercalate (L.drop 3)),
          Event.Log ("uuid: " ++ Uuid)]
          ++ [Event.Log ("Error parsing profiles.xml file at line: "
            ++ toString Out.OutErrorLineNumber ++ " " ++ Out.OutErrorMessage)]) = true := by
      simp only [parseErrorLogged, List.any_append, List.any_cons, List.any_nil,
        error_line_assoc, parseErrorLogged_line]
      simp
    rw [if_pos h]
    refine ⟨⟨fun _ => h, fun _ => hlog⟩, ?_, fun _ => by simp⟩
    intro hmsg
    rw [hmsg] at h
    exact absurd h.2 (by decide)
  · have hlog : parseErrorLogged
        ([Event.GetEnvironmentVariable "APPDATA",
          Event.FileExists (QtCreatorProfileXmlFile W),
          Event.LoadFileToStringArray (QtCreatorProfileXmlFile W),
          Event.ParseXmlFile "" ("\n".intercalate (L.drop 3)),
          Event.Log ("uuid: " ++ Uuid)]
          ++ []) = false := by
      simp [parseErrorLogged, List.isPrefixOf]
    rw [if_neg h, hlog]
    exact ⟨⟨fun e => absurd e (by decide), fun e => absurd e h⟩, fun _ => rfl,
      fun e => absurd e (by decide)⟩

/-- C4: when the settings file exists and the scan is reached (at least three
lines, a remainder that is not empty), for every parser outcome the line
`Error parsing profiles.xml file at line: ...` is logged if and only if the
parser's error message is non-empty and different from the exact text
`User aborted the parsing process`; in particular the abort message produces
no parse-error line. The parser's messages are fixed texts and it spells the
abort message as the literal does: a message equal to it up to letter case,
which is all `operator!=` looks at, is that text. -/
theorem parse_error_logged_iff (W : World) (self : FCuteCodeInitializer)
    (Settings : UCuteCodeEditorSettings) (L : List String) (Uuid : String) (Out : XmlOutcome)
    (hSet : W.GetDefaultSettings = some Settings) (hKit : Settings.UnrealKitName ≠ "")
    (hYes : W.FileExists (QtCreatorProfileXmlFile W) = true)
    (hL : W.LoadFileToStringArray (QtCreatorProfileXmlFile W) = L)
    (hLen : 3 ≤ L.length) (hBuf : joinLines (L.drop 3) ≠ "")
    (hP : W.ParseProfilesXml "" (joinLines (L.drop 3)) = (Uuid, Out))
    (hText : Out.OutErrorMessage.data.map Char.toLower
        = "User aborted the parsing process".data.map Char.toLower →
      Out.OutErrorMessage = "User aborted the parsing process") :
    (parseErrorLogged (CreateProUserFile W self).events = true ↔
      Out.OutErrorMessage ≠ "" ∧
      Out.OutErrorMessage ≠ "User aborted the parsing process") ∧
    (Out.OutErrorMessage = "User aborted the parsing process" →
      parseErrorLogged (CreateProUserFile W self).events = false) ∧
    (parseErrorLogged (CreateProUserFile W self).events = true →
      Event.Log ("Error parsing profiles.xml file at line: "
        ++ toString Out.OutErrorLineNumber ++ " " ++ Out.OutErrorMessage)
        ∈ (CreateProUserFile W self).events) := by
  obtain ⟨h1, h2, h3⟩ := parseErrorLogged_iff_ignoring_case W self Settings L Uuid Out
    hSet hKit hYes hL hLen hBuf hP
  refine ⟨h1.trans ⟨?_, ?_⟩, h2, h3⟩
  · rintro ⟨hne, hcase⟩
    exact ⟨hne, fun e => hcase (by rw [e])⟩
  · rintro ⟨hne, hexact⟩
    exact ⟨hne, fun e => hexact (hText e)⟩

/-- Witness of C4: a syntax error is logged with its line number, on a
five-line settings file, and the abort message of `sampleWorld` is not. -/
theorem parse_error_logged_iff_witness :
    3 ≤ (sampleWorldSyntaxError.LoadFileToStringArray
      (QtCreatorProfileXmlFile sampleWorldSyntaxError)).length ∧
    parseErrorLogged (CreateProUserFile sampleWorldSyntaxError sampleInitializer).events = true ∧
    Event.Log "Error parsing profiles.xml file at line: 7 Expected a tag name"
      ∈ (CreateProUserFile sampleWorldSyntaxError sampleInitializer).events ∧
    parseErrorLogged (CreateProUserFile sampleWorld sampleInitializer).events = false := by
  obtain ⟨h1, _, h3⟩ := parse_error_logged_iff sampleWorldSyntaxError sampleInitializer
    { UnrealKitName := "Unreal" }
    ["<?xml version=\"1.0\"?>", "<!DOCTYPE QtCreatorProfiles>", "<!-- Written -->",
      "<qtcreator>", "</qtcreator>"]
    "" ⟨"Expected a tag name", 7⟩ rfl (by decide) rfl rfl (by decide) (by decide) rfl
    (fun e => absurd e (by decide))
  obtain ⟨_, k2, _⟩ := parse_error_logged_iff sampleWorld sampleInitializer
    { UnrealKitName := "Unreal" }
    ["<?xml version=\"1.0\"?>", "<!DOCTYPE QtCreatorProfiles>", "<!-- Written -->",
      "<qtcreator>", "</qtcreator>"]
    "kit-uuid" ⟨"User aborted the parsing process", 4⟩ rfl (by decide) rfl rfl (by decide)
    (by decide) rfl (fun _ => rfl)
  have hlogged := h1.mpr ⟨by decide, by decide⟩
  exact ⟨by decide, hlogged, h3 hlogged, k2 rfl⟩

/-- C10, as the code has it: for every list of lines `L` loaded from an
existing settings file that has at least three lines and whose remainder does
not join to the empty string, the first three lines are removed whatever they
hold, and the one buffer handed to the XML parser is the remaining lines
`L[3..]` joined with a single newline between consecutive lines and none at the
end; only log lines follow the scan. -/
theorem parser_buffer_drops_three_lines (W : World) (self : FCuteCodeInitializer)
    (Settings : UCuteCodeEditorSettings) (L : List String)
    (hSet : W.GetDefaultSettings = some Settings) (hKit : Settings.UnrealKitName ≠ "")
    (hYes : W.FileExists (QtCreatorProfileXmlFile W) = true)
    (hL : W.LoadFileToStringArray (QtCreatorProfileXmlFile W) = L)
    (hLen : 3 ≤ L.length) (hBuf : joinLines (L.drop 3) ≠ "") :
    ∃ Logs : List Event,
      (CreateProUserFile W self).events =
        [.GetEnvironmentVariable "APPDATA",
         .FileExists (QtCreatorProfileXmlFile W),
         .LoadFileToStringArray (QtCreatorProfileXmlFile W),
         .ParseXmlFile "" (joinLines (L.drop 3))] ++ Logs ∧
      (∀ e ∈ Logs, ∃ m, e = .Log m) ∧
      (CreateProUserFile W self).completed = true := by
  rw [← intercalate_newline_eq_joinLines] at hBuf ⊢
  rw [CreateProUserFile_parsed W self Settings L _ _ hSet hKit hYes hL hLen hBuf rfl]
  refine ⟨[Event.Log ("uuid: " ++ (W.ParseProfilesXml "" ("\n".intercalate (L.drop 3))).1)]
    ++ (if (W.ParseProfilesXml "" ("\n".intercalate (L.drop 3))).2.OutErrorMessage ≠ ""
          ∧ FStringNotEqual (W.ParseProfilesXml "" ("\n".intercalate (L.drop 3))).2.OutErrorMessage
              "User aborted the parsing process" = true
        then [Event.Log ("Error parsing profiles.xml file at line: "
          ++ toString (W.ParseProfilesXml "" ("\n".intercalate (L.drop 3))).2.OutErrorLineNumber
          ++ " " ++ (W.ParseProfilesXml "" ("\n".intercalate (L.drop 3))).2.OutErrorMessage)]
        else []), ?_, ?_, rfl⟩
  · simp
  · intro e he
    rw [List.mem_append] at he
    rcases he with he | he
    · exact ⟨_, List.mem_singleton.mp he⟩
    · split_ifs at he with h
      · exact ⟨_, List.mem_singleton.mp he⟩
      · exact absurd he (List.not_mem_nil e)

/-- Witness of C10 (amended): of the five lines of the sample settings file the
parser receives the last two, joined by one newline. -/
theorem parser_buffer_drops_three_lines_witness :
    3 ≤ (sampleWorld.LoadFileToStringArray (QtCreatorProfileXmlFile sampleWorld)).length ∧
    Event.ParseXmlFile "" "<qtcreator>\n</qtcreator>"
      ∈ (CreateProUserFile sampleWorld sampleInitializer).events := by
  obtain ⟨Logs, hE, _, _⟩ := parser_buffer_drops_three_lines sampleWorld sampleInitializer
    { UnrealKitName := "Unreal" }
    ["<?xml version=\"1.0\"?>", "<!DOCTYPE QtCreatorProfiles>", "<!-- Written -->",
      "<qtcreator>", "</qtcreator>"]
    rfl (by decide) rfl rfl (by decide) (by decide)
  refine ⟨by decide, ?_⟩
  rw [hE]
  have hj : joinLines (List.drop 3
      ["<?xml version=\"1.0\"?>", "<!DOCTYPE QtCreatorProfiles>", "<!-- Written -->",
        "<qtcreator>", "</qtcreator>"]) = "<qtcreator>\n</qtcreator>" := by decide
  rw [hj]
  simp

/-- Counterexample to C10 as stated: on a settings file of two lines the run
stops in `RemoveAt(0, 3)` and on one of exactly three lines it stops in
`&JoinedLines[0]`; in both no buffer, empty or not, is handed to the XML
parser. -/
theorem short_settings_file_counterexample :
    CreateProUserFile sampleWorldShortFile sampleInitializer =
      ⟨[.GetEnvironmentVariable "APPDATA",
        .FileExists "C:/Users/u/AppData/Roaming/QtProject/qtcreator/profiles.xml",
        .LoadFileToStringArray "C:/Users/u/AppData/Roaming/QtProject/qtcreator/profiles.xml"],
       .error .RemoveAt⟩ ∧
    Event.ParseXmlFile "" (joinLines (List.drop 3 ["<qtcreator>", "</qtcreator>"]))
      ∉ (CreateProUserFile sampleWorldShortFile sampleInitializer).events ∧
    CreateProUserFile sampleWorldThreeLines sampleInitializer =
      ⟨[.GetEnvironmentVariable "APPDATA",
        .FileExists "C:/Users/u/AppData/Roaming/QtProject/qtcreator/profiles.xml",
        .LoadFileToStringArray "C:/Users/u/AppData/Roaming/QtProject/qtcreator/profiles.xml"],
       .error .Index⟩ := by
  refine ⟨rfl, by decide, rfl⟩

end CuteCode
